import Mathlib

/-!
# Verification of the interval-reconciliation and rule-classification core

Shallow embedding of the productivity-monitoring repository's two core
subsystems:

* the interval reconciliation pipeline of the timeline module
  (`resolveStatusConflictsAdvanced` and its stages: `removeDuplicatesAdvanced`,
  time sort, `resolveOverlapsAdvanced`, `consolidateConsecutiveAdvanced`,
  `fillSmallGapsIntelligent`, `applyMLOptimizations`), together with the
  status-priority table of the core module;
* the layered classification rule engine (`evaluateRules` and its layers,
  `applyIntelligentRules`, `classifyActivityAdvanced`), the rule-document
  validation (`validateAndMigrateRules`, `loadSavedOrDefaultRules`) and the
  dirty-flag persistence cycle (`updateRule`, `autoAddRule`, the
  `startAutoSave` tick).

Modelling conventions:

* JavaScript timestamps (`new Date(x).getTime()`) are integers in
  milliseconds (`Int`); fractional quantities (confidences, scores, hours,
  seconds with divisions) are rationals (`ℚ`).
* The JavaScript field name `end` is rendered `stop` (Lean reserves `end`);
  every other field keeps its source name.
* `x || d` on a possibly-absent number is `jsOrQ`/`jsOrN` (JavaScript treats
  `0` as falsy), on a possibly-absent string `jsOrS` (`""` is falsy), and on a
  possibly-absent array `Option.getD` (an empty array is truthy).
* Object lookups `obj[key]` on string-keyed tables are association-list
  lookups (`jsGet`), with a `""` value treated as falsy where the source
  tests the looked-up value for truthiness.
* `Array.prototype.sort` with comparator `(a, b) => a.start - b.start` is a
  stable sort by ascending `start`; `List.insertionSort` by the same total
  preorder computes exactly that stable sort.
-/

/-- `x || d` for a possibly-absent rational (JavaScript `||`: `0` is falsy). -/
def jsOrQ (o : Option ℚ) (d : ℚ) : ℚ :=
  match o with
  | some q => if q = 0 then d else q
  | none => d

/-- `x || d` for a possibly-absent counter (JavaScript `||`: `0` is falsy). -/
def jsOrN (o : Option Nat) (d : Nat) : Nat :=
  match o with
  | some n => if n = 0 then d else n
  | none => d

/-- `x || d` for a possibly-absent string (JavaScript `||`: `""` is falsy). -/
def jsOrS (o : Option String) (d : String) : String :=
  match o with
  | some s => if s = "" then d else s
  | none => d

/-- Lookup `obj[key]` on a string-keyed object, `undefined` as `none`. -/
def jsGet {α : Type} (m : List (String × α)) (k : String) : Option α :=
  (m.find? (fun p => p.1 = k)).map (fun p => p.2)

/-- `Math.round(t / 60000) * 60000` for an integer count `t` of
milliseconds: round to the nearest minute, halves toward positive
infinity (JavaScript `Math.round(x) = ⌊x + 1/2⌋`). -/
def roundMinute (t : Int) : Int := ((t + 30000).fdiv 60000) * 60000

/-- A status record of the timeline module: a per-asset operating-state
interval as it flows through the reconciliation pipeline.  Mirrors the raw
record fields (`start`, `end` (here `stop`), `status`, `status_title`,
`vacancy_code`, `total_time`) plus the fields the pipeline itself attaches
(`confidence`, `consolidated_count`, `merged_sources`, `gap_filled`,
`gap_type`, `anomaly_corrected`, `original_status`, `merge_type`,
`original_statuses`, `split_type`), absent (`undefined`) modelled as
`none`/`false`. -/
structure StatusRec where
  start : Int
  stop : Int
  status : String
  status_title : Option String := none
  vacancy_code : String := ""
  total_time : ℚ := 0
  confidence : Option ℚ := none
  consolidated_count : Option Nat := none
  merged_sources : Option (List Int) := none
  gap_filled : Bool := false
  gap_type : Option String := none
  anomaly_corrected : Bool := false
  original_status : Option String := none
  merge_type : Option String := none
  original_statuses : Option (String × String) := none
  split_type : Option String := none
  deriving Repr, DecidableEq, Inhabited

/-- The core module configuration fields the pipeline reads
(`conflictResolution`, default `'priority'`; `gapTolerance` in seconds,
default `60`). -/
structure CoreConfig where
  conflictResolution : String := "priority"
  gapTolerance : ℚ := 60
  deriving Repr, DecidableEq, Inhabited

/-- The default core configuration (`conflictResolution: 'priority'`,
`gapTolerance: 60`). -/
def coreConfigDefault : CoreConfig := {}

/-- The core module's `statusPriority` table (`priority[status] || 0`). -/
def statusPriority (s : String) : ℚ :=
  if s = "maintenance" then 10
  else if s = "out_of_plant" then 9
  else if s = "secondary_motor_on" then 8
  else if s = "on" then 7
  else if s = "running" then 7
  else if s = "stopped" then 6
  else if s = "off" then 5
  else if s = "not_appropriated" then 4
  else if s = "no_data" then 3
  else 0

/-- The dedup key of `removeDuplicatesAdvanced`: start and end rounded to
the nearest minute, the status code, and the `vacancy_code`. -/
def dedupKey (s : StatusRec) : Int × Int × String × String :=
  (roundMinute s.start, roundMinute s.stop, s.status, s.vacancy_code)

/-- `removeDuplicatesAdvanced`: the `Array.prototype.filter` pass over the
status list with the mutable `seen` map.  A record whose key is unseen is
kept and recorded; on a key collision the incoming record is kept (and
replaces the map entry) exactly when its `total_time` is strictly larger
than the stored record's, and dropped otherwise.  Note the filter cannot
retract the previously accepted record, so a larger-`total_time` collision
keeps both records.  `removeDuplicatesStep` is one filter iteration
(state: the `seen` map and the records kept so far). -/
def removeDuplicatesStep
    (acc : List ((Int × Int × String × String) × StatusRec) × List StatusRec)
    (status : StatusRec) :
    List ((Int × Int × String × String) × StatusRec) × List StatusRec :=
  let key := dedupKey status
  match acc.1.find? (fun p => p.1 = key) with
  | some existing =>
    if status.total_time > existing.2.total_time then
      (acc.1.map (fun q => if q.1 = key then (key, status) else q), acc.2 ++ [status])
    else (acc.1, acc.2)
  | none => (acc.1 ++ [(key, status)], acc.2 ++ [status])

/-- `removeDuplicatesAdvanced`: the filter pass (see
`removeDuplicatesStep`). -/
def removeDuplicatesAdvanced (l : List StatusRec) : List StatusRec :=
  (l.foldl removeDuplicatesStep ([], [])).2

/-- The comparator of step 2 of `resolveStatusConflictsAdvanced`
(`(a, b) => new Date(a.start) - new Date(b.start)`) as a total preorder. -/
def startLE (a b : StatusRec) : Prop := a.start ≤ b.start

instance : DecidableRel startLE := fun a b => Int.decLe a.start b.start

instance : IsTotal StatusRec startLE := ⟨fun a b => Int.le_total a.start b.start⟩

instance : IsTrans StatusRec startLE := ⟨fun _ _ _ h1 h2 => Int.le_trans h1 h2⟩

/-- `getContextScore`: the per-group, per-status context lookup with the
`|| 0.5` default. -/
def getContextScore (status equipmentGroup : String) : ℚ :=
  if equipmentGroup = "Alta Pressão" then
    if status = "stopped" then 8/10
    else if status = "running" then 9/10
    else 1/2
  else if equipmentGroup = "Vácuo" then
    if status = "secondary_motor_on" then 9/10
    else if status = "maintenance" then 7/10
    else 1/2
  else if equipmentGroup = "Caminhões" then
    if status = "running" then 9/10
    else if status = "stopped" then 3/10
    else 1/2
  else 1/2

/-- The historical-pattern record `detectPattern` returns. -/
structure PatternInfo where
  confidence : ℚ
  optimalSplitPoint : ℚ
  weight1 : ℚ
  weight2 : ℚ
  deriving Repr, DecidableEq, Inhabited

/-- `detectPattern`: consults the cache under key `pattern_<equipment>`;
no code path of the repository ever writes a cache entry under such a key,
so the lookup always misses and the hard-coded default pattern
(`confidence 0.5`, `optimalSplitPoint 0.5`, weights `0.5`) is returned. -/
def detectPattern (_status1 _status2 : StatusRec) : PatternInfo :=
  ⟨1/2, 1/2, 1/2, 1/2⟩

/-- The resolution object `resolveConflictAdvanced` hands back to the
`switch (resolution.action)` of `resolveOverlapsAdvanced`.  `traditional`
stands for the default branch (a returned record has no `action` field, so
the switch falls through to `resolveConflictTraditional`). -/
inductive ConflictAction where
  | merge_weighted (weight1 weight2 : ℚ)
  | split_intelligent (splitPoint : ℚ)
  | priority_enhanced (winnerCurrent : Bool)
  | traditional
  deriving Repr, DecidableEq

/-- The composite score of `resolveConflictAdvanced`:
`priority · 0.6 + (confidence || 0.5) · 0.3 + contextScore · 0.1`. -/
def compositeScore (equipmentGroup : String) (s : StatusRec) : ℚ :=
  statusPriority s.status * (6/10) + jsOrQ s.confidence (1/2) * (3/10) +
    getContextScore s.status equipmentGroup * (1/10)

/-- `resolveConflictAdvanced`: composite scores
`0.6·priority + 0.3·confidence + 0.1·contextScore` per candidate; under the
`'priority'` strategy a score difference above `0.2` selects the
higher-scoring side outright (`priority_enhanced`), otherwise a weighted
merge with the scores as weights; under `'intelligent'` the (always
default, see `detectPattern`) pattern decides; any other strategy falls to
the traditional resolver. -/
def resolveConflictAdvanced (cfg : CoreConfig) (equipmentGroup : String)
    (status1 status2 : StatusRec) : ConflictAction :=
  let score1 := compositeScore equipmentGroup status1
  let score2 := compositeScore equipmentGroup status2
  if cfg.conflictResolution = "priority" then
    if |score1 - score2| > 2/10 then
      ConflictAction.priority_enhanced (score1 > score2)
    else
      ConflictAction.merge_weighted score1 score2
  else if cfg.conflictResolution = "intelligent" then
    let pattern := detectPattern status1 status2
    if pattern.confidence > 7/10 then
      ConflictAction.split_intelligent pattern.optimalSplitPoint
    else
      ConflictAction.merge_weighted pattern.weight1 pattern.weight2
  else ConflictAction.traditional

/-- `resolveConflictTraditional`: priority keeps the stronger side
(extending its end when the current side wins, most recent on a tie),
`'latest'` keeps the incoming record, `'longest'` keeps the longer record
(extending the current side's end when it wins), anything else keeps the
incoming record. -/
def resolveConflictTraditional (cfg : CoreConfig) (status1 status2 : StatusRec) : StatusRec :=
  let priority1 := statusPriority status1.status
  let priority2 := statusPriority status2.status
  if cfg.conflictResolution = "priority" then
    if priority1 > priority2 then { status1 with stop := status2.stop }
    else if priority2 > priority1 then status2
    else status2
  else if cfg.conflictResolution = "latest" then status2
  else if cfg.conflictResolution = "longest" then
    let duration1 := status1.stop - status1.start
    let duration2 := status2.stop - status2.start
    if duration1 > duration2 then { status1 with stop := status2.stop }
    else status2
  else status2

/-- `mergeStatusWithWeight`: weighted merge spanning from the current
record's start to the incoming record's end, summed `total_time`, keeping
the fields of the side with the larger normalized weight and storing that
weight as the confidence. -/
def mergeStatusWithWeight (status1 status2 : StatusRec) (w1 w2 : ℚ) : StatusRec :=
  let weight1 := if w1 = 0 then 1/2 else w1
  let weight2 := if w2 = 0 then 1/2 else w2
  let totalWeight := weight1 + weight2
  let normalizedWeight1 := weight1 / totalWeight
  let normalizedWeight2 := weight2 / totalWeight
  let chosenStatus := if normalizedWeight1 > normalizedWeight2 then status1 else status2
  { chosenStatus with
    start := status1.start
    stop := status2.stop
    total_time := status1.total_time + status2.total_time
    confidence := some (if normalizedWeight1 > normalizedWeight2 then normalizedWeight1
      else normalizedWeight2)
    merge_type := some "weighted"
    original_statuses := some (status1.status, status2.status) }

/-- `splitStatusIntelligent`: cut the combined span at
`start1 + (end2 - start1) · splitPoint` (the fractional millisecond is
truncated by the `Date` constructor; the spans here are nonnegative, so
truncation is `⌊·⌋`). -/
def splitStatusIntelligent (status1 status2 : StatusRec) (splitPoint : ℚ) :
    StatusRec × StatusRec :=
  let start1 := status1.start
  let end2 := status2.stop
  let duration := end2 - start1
  let splitTime : Int := start1 + ⌊(duration : ℚ) * splitPoint⌋
  ({ status1 with stop := splitTime, split_type := some "intelligent" },
   { status2 with start := splitTime, split_type := some "intelligent" })

/-- Flush the running `current` (if any) after a walk with a running
record (`if (current) resolved.push(current)`). -/
def flushCurrent (res : List StatusRec × Option StatusRec) : List StatusRec :=
  match res.2 with
  | some current => res.1 ++ [current]
  | none => res.1

/-- One loop iteration of `resolveOverlapsAdvanced`: state is the flushed
`resolved` list and the running `current`. -/
def resolveOverlapsStep (cfg : CoreConfig) (equipmentGroup : String)
    (acc : List StatusRec × Option StatusRec) (status : StatusRec) :
    List StatusRec × Option StatusRec :=
  match acc.2 with
  | none => (acc.1, some status)
  | some current =>
    if status.start < current.stop ∧ current.stop - status.start > 30000 then
      match resolveConflictAdvanced cfg equipmentGroup current status with
      | ConflictAction.merge_weighted w1 w2 =>
        (acc.1, some (mergeStatusWithWeight current status w1 w2))
      | ConflictAction.split_intelligent splitPoint =>
        let splitResult := splitStatusIntelligent current status splitPoint
        (acc.1 ++ [splitResult.1], some splitResult.2)
      | ConflictAction.priority_enhanced winnerCurrent =>
        if winnerCurrent then
          (acc.1, some { current with
            confidence := some (jsOrQ current.confidence (1/2) + 1/10)
            stop := if status.stop > current.stop then status.stop else current.stop })
        else
          (acc.1, some { status with
            confidence := some (jsOrQ status.confidence (1/2) + 1/10) })
      | ConflictAction.traditional =>
        (acc.1, some (resolveConflictTraditional cfg current status))
    else (acc.1 ++ [current], some status)

/-- `resolveOverlapsAdvanced`: walk the sorted list keeping a running
`current`; an incoming record overlapping `current` by strictly more than
the 30-second threshold is resolved per `resolveConflictAdvanced`,
otherwise `current` is flushed and the incoming record promoted; the final
`current` is flushed at the end. -/
def resolveOverlapsAdvanced (cfg : CoreConfig) (equipmentGroup : String)
    (l : List StatusRec) : List StatusRec :=
  if l.length ≤ 1 then l
  else flushCurrent (l.foldl (resolveOverlapsStep cfg equipmentGroup) ([], none))

/-- `getAdaptiveTolerance`: per-status multiples of the base gap tolerance
(`maintenance ×3`, `running ×0.5`, `stopped ×2`, `off ×1.5`, otherwise
×1), taking the larger of the two sides. -/
def getAdaptiveTolerance (cfg : CoreConfig) (status1 status2 : String) : ℚ :=
  let baseTimeout := cfg.gapTolerance
  let rule := fun s =>
    if s = "maintenance" then baseTimeout * 3
    else if s = "running" then baseTimeout * (1/2)
    else if s = "stopped" then baseTimeout * 2
    else if s = "off" then baseTimeout * (3/2)
    else baseTimeout
  max (rule status1) (rule status2)

/-- `areStatusesCompatible`: both statuses inside one of the known
compatibility groups. -/
def areStatusesCompatible (status1 status2 : String) : Bool :=
  [["running", "on", "working"],
   ["stopped", "idle"],
   ["off", "not_appropriated"],
   ["maintenance", "error"]].any
    (fun group => group.contains status1 && group.contains status2)

/-- `mergeStatusAdvanced`: absorb the incoming record into the current one
(end moves to the incoming end, `total_time` summed, `consolidated_count`
incremented, confidence nudged up capped at 1, start times collected in
`merged_sources`). -/
def mergeStatusAdvanced (status1 status2 : StatusRec) : StatusRec :=
  { status1 with
    stop := status2.stop
    total_time := status1.total_time + status2.total_time
    consolidated_count := some (jsOrN status1.consolidated_count 1 + 1)
    confidence := some (min (jsOrQ status1.confidence (1/2) + 1/10) 1)
    merged_sources := some (status1.merged_sources.getD [status1.start] ++ [status2.start]) }

/-- One loop iteration of `consolidateConsecutiveAdvanced`. -/
def consolidateStep (cfg : CoreConfig)
    (acc : List StatusRec × Option StatusRec) (status : StatusRec) :
    List StatusRec × Option StatusRec :=
  match acc.2 with
  | none => (acc.1, some status)
  | some current =>
    let gapSeconds : ℚ := ((status.start - current.stop : Int) : ℚ) / 1000
    let adaptiveTolerance := getAdaptiveTolerance cfg current.status status.status
    if (current.status = status.status ∧ current.status_title = status.status_title ∧
        |gapSeconds| ≤ adaptiveTolerance) ∨
       (areStatusesCompatible current.status status.status = true ∧ |gapSeconds| ≤ 30) then
      (acc.1, some (mergeStatusAdvanced current status))
    else (acc.1 ++ [current], some status)

/-- `consolidateConsecutiveAdvanced`: merge the incoming record into the
running one when same status and display title within the adaptive
tolerance, or compatible statuses within 30 seconds; otherwise flush. -/
def consolidateConsecutiveAdvanced (cfg : CoreConfig) (l : List StatusRec) :
    List StatusRec :=
  if l.length ≤ 1 then l
  else flushCurrent (l.foldl (consolidateStep cfg) ([], none))

/-- The record `chooseFillStatus` returns. -/
structure FillChoice where
  status : String
  title : String
  confidence : ℚ
  type : String
  deriving Repr, DecidableEq, Inhabited

/-- The group-contextual gap-fill rule table of `chooseFillStatus`, keyed
by equipment group and then by `"<prevStatus>-<nextStatus>"`. -/
def fillRules : List (String × List (String × (String × String × ℚ))) :=
  [("Alta Pressão",
    [("running-stopped", ("transitioning", "Transicionando", 8/10)),
     ("stopped-running", ("preparing", "Preparando", 8/10))]),
   ("Caminhões",
    [("running-stopped", ("off", "Motor Desligado", 9/10)),
     ("stopped-running", ("preparing", "Preparando", 7/10))])]

/-- `chooseFillStatus`: contextual fill rule for the group and status pair
when defined, otherwise the default fill (`off`, "Motor Desligado",
confidence 0.5). -/
def chooseFillStatus (equipmentGroup : String) (prevStatus nextStatus : StatusRec) :
    FillChoice :=
  let ruleKey := prevStatus.status ++ "-" ++ nextStatus.status
  match (jsGet fillRules equipmentGroup).bind (fun groupRules => jsGet groupRules ruleKey) with
  | some rule => ⟨rule.1, rule.2.1, rule.2.2, "contextual"⟩
  | none => ⟨"off", "Motor Desligado", 1/2, "default"⟩

/-- The filler record `fillSmallGapsIntelligent` synthesizes between two
consecutive records (a spread of the earlier record with status, title,
bounds, `total_time` in hours, `gap_filled`, `gap_type` and confidence
overwritten). -/
def fillerRecord (equipmentGroup : String) (a b : StatusRec) : StatusRec :=
  let gapSeconds : ℚ := ((b.start - a.stop : Int) : ℚ) / 1000
  let fillStatus := chooseFillStatus equipmentGroup a b
  { a with
    status := fillStatus.status
    status_title := some fillStatus.title
    start := a.stop
    stop := b.start
    total_time := gapSeconds / 3600
    gap_filled := true
    gap_type := some fillStatus.type
    confidence := some fillStatus.confidence }

/-- The indexed loop of `fillSmallGapsIntelligent`: push each record and,
when the gap to the next record is in `(0, 2 · gapTolerance]` seconds,
push a synthesized filler. -/
def fillGapsLoop (cfg : CoreConfig) (equipmentGroup : String) :
    List StatusRec → List StatusRec
  | [] => []
  | [x] => [x]
  | a :: b :: t =>
    let gapSeconds : ℚ := ((b.start - a.stop : Int) : ℚ) / 1000
    if 0 < gapSeconds ∧ gapSeconds ≤ cfg.gapTolerance * 2 then
      a :: fillerRecord equipmentGroup a b :: fillGapsLoop cfg equipmentGroup (b :: t)
    else a :: fillGapsLoop cfg equipmentGroup (b :: t)

/-- `fillSmallGapsIntelligent`: lists of length at most one pass through;
otherwise run the filling loop. -/
def fillSmallGapsIntelligent (cfg : CoreConfig) (equipmentGroup : String)
    (l : List StatusRec) : List StatusRec :=
  if l.length ≤ 1 then l else fillGapsLoop cfg equipmentGroup l

/-- One entry of the `anomalousPatterns` table of `isAnomalousSequence`. -/
structure AnomalousPattern where
  prev : String
  current : String
  next : String
  maxDuration : Int
  deriving Repr, DecidableEq, Inhabited

/-- The `anomalousPatterns` table (durations in milliseconds). -/
def anomalousPatterns : List AnomalousPattern :=
  [⟨"running", "stopped", "running", 30000⟩,
   ⟨"off", "running", "off", 60000⟩,
   ⟨"maintenance", "running", "maintenance", 300000⟩]

/-- `isAnomalousSequence`: the triplet matches one of the known anomalous
patterns and the middle record's duration is strictly below that pattern's
threshold. -/
def isAnomalousSequence (prev current next : StatusRec) : Bool :=
  let duration := current.stop - current.start
  anomalousPatterns.any (fun pattern =>
    pattern.prev == prev.status && pattern.current == current.status &&
    pattern.next == next.status && decide (duration < pattern.maxDuration))

/-- `findMostLikelyStatus`: most frequent status of the list (ties keep
the earlier record), returning its status and display title
(`status_title || status`).  The source seeds `mostLikely` with the first
element; callers always pass a nonempty list. -/
def findMostLikelyStatus (statusList : List StatusRec) : String × String :=
  let res := statusList.foldl
    (fun (acc : List (String × Nat) × Nat × StatusRec) status =>
      let count := ((jsGet acc.1 status.status).getD 0) + 1
      let counts := if (acc.1.find? (fun p => p.1 = status.status)).isSome then
          acc.1.map (fun p => if p.1 = status.status then (p.1, count) else p)
        else acc.1 ++ [(status.status, count)]
      if count > acc.2.1 then (counts, count, status) else (counts, acc.2.1, acc.2.2))
    ([], 0, statusList.headI)
  (res.2.2.status, jsOrS res.2.2.status_title res.2.2.status)

/-- `correctAnomalousSequence`: rewrite only the middle record's status
fields to the most likely status among its neighbours, flagging the
correction, preserving the original status and setting confidence 0.6. -/
def correctAnomalousSequence (prev current next : StatusRec) : StatusRec :=
  let avgStatus := findMostLikelyStatus [prev, next]
  { current with
    status := avgStatus.1
    status_title := some avgStatus.2
    anomaly_corrected := true
    original_status := some current.status
    confidence := some (6/10) }

/-- The loop body of `applyMLOptimizations` at index `i`: neighbours are
taken from the input list (`prev = i > 0 ? list[i-1] : null`,
`next = i < length-1 ? list[i+1] : null`); with both present an anomalous
middle is corrected. -/
def applyMLStep (l : List StatusRec) (i : Nat) (current : StatusRec) : StatusRec :=
  if i = 0 then current
  else
    match l.get? (i + 1) with
    | none => current
    | some next =>
      match l.get? (i - 1) with
      | none => current
      | some prev =>
        if isAnomalousSequence prev current next then
          correctAnomalousSequence prev current next
        else current

/-- `applyMLOptimizations`: scan every position with both neighbours
present (neighbours taken from the input list) and replace anomalous
middles by their correction; lists shorter than 3 pass through. -/
def applyMLOptimizations (l : List StatusRec) : List StatusRec :=
  if l.length < 3 then l
  else l.mapIdx (applyMLStep l)

/-- `resolveStatusConflictsAdvanced`: the full per-asset reconciliation
pipeline — dedup, stable sort by start, overlap resolution, consolidation,
gap filling, anomaly correction.  `equipmentGroup` is
`determineEquipmentGroup(equipmentName)` of the analytics module. -/
def resolveStatusConflictsAdvanced (cfg : CoreConfig) (equipmentGroup : String)
    (statusList : List StatusRec) : List StatusRec :=
  if statusList.isEmpty then []
  else
    let uniqueStatus := removeDuplicatesAdvanced statusList
    let sortedStatus := uniqueStatus.insertionSort startLE
    let resolvedStatus := resolveOverlapsAdvanced cfg equipmentGroup sortedStatus
    let consolidatedStatus := consolidateConsecutiveAdvanced cfg resolvedStatus
    let finalStatus := fillSmallGapsIntelligent cfg equipmentGroup consolidatedStatus
    applyMLOptimizations finalStatus

/-! ## The layered classification rule engine (rules module) -/

/-- Substring test `hay.includes(needle)` (JavaScript `String.includes`). -/
def strIncludes (hay needle : String) : Bool :=
  decide (needle.toList <:+: hay.toList)

/-- Truthy lookup `obj[key]` with a possibly-undefined key: `undefined`
keys never match and a `""` value is falsy. -/
def jsTruthyGet (m : List (String × String)) (k : Option String) : Option String :=
  match k with
  | none => none
  | some key =>
    match jsGet m key with
    | some v => if v = "" then none else some v
    | none => none

/-- A time window of `timeBasedRules` (`start`/`end` as minutes of the
day: the source compares zero-padded `"HH:MM"` strings lexicographically,
which coincides with the numeric order of minutes of the day). -/
structure TimeWindow where
  start : Nat
  stop : Nat
  modifiers : List (String × String)
  deriving Repr, DecidableEq, Inhabited

/-- The `timeBasedRules` record. -/
structure TimeBasedRules where
  businessHours : TimeWindow
  nightShift : TimeWindow
  deriving Repr, DecidableEq, Inhabited

/-- One entry of `groupSpecificRules`. -/
structure GroupConfig where
  enabled : Bool
  overrides : List (String × String)
  deriving Repr, DecidableEq, Inhabited

/-- The `contextualRules.weatherDependent` record. -/
structure WeatherDependent where
  enabled : Bool
  rainModifiers : List (String × String)
  deriving Repr, DecidableEq, Inhabited

/-- The `contextualRules.maintenanceWindows` record (only the weekly
modifiers table is consulted by `applyContextualRules`). -/
structure MaintenanceWindows where
  enabled : Bool
  weeklyMaintenanceModifiers : List (String × String)
  deriving Repr, DecidableEq, Inhabited

/-- The `contextualRules` record. -/
structure ContextualRules where
  weatherDependent : WeatherDependent
  maintenanceWindows : MaintenanceWindows
  deriving Repr, DecidableEq, Inhabited

/-- The `globalSettings` fields the evaluation path reads. -/
structure GlobalSettings where
  enableTimeBasedRules : Bool
  enableGroupOverrides : Bool
  enableContextualRules : Bool
  defaultClassification : String
  deriving Repr, DecidableEq, Inhabited

/-- The loaded `rulesConfig` document as the evaluation path reads it. -/
structure RulesConfig where
  telemetryRules : List (String × String)
  appointmentRules : List (String × String)
  groupSpecificRules : List (String × GroupConfig)
  timeBasedRules : TimeBasedRules
  contextualRules : ContextualRules
  globalSettings : GlobalSettings
  deriving Repr, DecidableEq, Inhabited

/-- The `conditions` object of a classification context. -/
structure RuleConditions where
  weather : Option String
  isMaintenanceWindow : Bool
  deriving Repr, DecidableEq, Inhabited

/-- The classification `context` (`timestamp` as minutes of the day of
its `"HH:MM"` rendering; absent fields as `none`). -/
structure RuleContext where
  timestamp : Option Nat
  equipmentGroup : Option String
  conditions : Option RuleConditions
  deriving Repr, DecidableEq, Inhabited

/-- One entry of `statusDefinitions`/`appointmentDefinitions`: the key,
the display `name` and the `defaultClassification`. -/
structure DefEntry where
  key : String
  name : String
  defaultClassification : String
  deriving Repr, DecidableEq, Inhabited

/-- `statusDefinitions` (key, name, default classification), in source
insertion order. -/
def statusDefinitions : List DefEntry :=
  [⟨"running", "Operando", "productive"⟩,
   ⟨"on", "Motor Ligado", "productive"⟩,
   ⟨"working", "Trabalhando", "productive"⟩,
   ⟨"stopped", "Parado", "neutral"⟩,
   ⟨"idle", "Inativo", "neutral"⟩,
   ⟨"off", "Motor Desligado", "non-productive"⟩,
   ⟨"maintenance", "Manutenção", "non-productive"⟩,
   ⟨"out_of_plant", "Fora da Planta", "non-productive"⟩,
   ⟨"error", "Erro", "non-productive"⟩,
   ⟨"secondary_motor_on", "Motor Secundário", "productive"⟩,
   ⟨"not_appropriated", "Não Apropriado", "neutral"⟩,
   ⟨"no_data", "Sem Dados", "neutral"⟩]

/-- `appointmentDefinitions` (key, name, default classification), in
source insertion order. -/
def appointmentDefinitions : List DefEntry :=
  [⟨"Documentação", "Documentação", "productive"⟩,
   ⟨"Preparação", "Preparação", "productive"⟩,
   ⟨"Abastecimento", "Abastecimento", "productive"⟩,
   ⟨"Descarregamento", "Descarregamento", "productive"⟩,
   ⟨"Manutenção", "Manutenção", "non-productive"⟩,
   ⟨"Pequenas manutenções", "Pequenas Manutenções", "non-productive"⟩,
   ⟨"Bloqueio", "Bloqueio", "non-productive"⟩,
   ⟨"Troca de Equipamento", "Troca de Equipamento", "non-productive"⟩,
   ⟨"Refeição Motorista", "Refeição do Motorista", "neutral"⟩,
   ⟨"Aguardando", "Aguardando", "neutral"⟩,
   ⟨"Aguardando Área", "Aguardando Área", "neutral"⟩,
   ⟨"Aguardando semáforo/cancela", "Aguardando Semáforo", "neutral"⟩,
   ⟨"Aguardando carreta bascular", "Aguardando Carreta", "neutral"⟩]

/-- `intelligentFallback`: case-insensitive substring match of the
activity against the definition keys and display names (status keys are
matched verbatim, as in the source, where they are already lowercase;
Lean's `String.toLower` lowercases ASCII only, which matches the source
on every key/name whose non-ASCII letters are already lowercase), else
`globalSettings.defaultClassification || 'neutral'`. -/
def intelligentFallback (rc : RulesConfig) (activity : String) (activityType : String) : String :=
  let activityLower := activity.toLower
  let fromDefs :=
    if activityType = "status" then
      (statusDefinitions.find? (fun d =>
        strIncludes activityLower d.key || strIncludes activityLower d.name.toLower)).map
        (fun d => d.defaultClassification)
    else
      (appointmentDefinitions.find? (fun d =>
        strIncludes activityLower d.key.toLower || strIncludes activityLower d.name.toLower)).map
        (fun d => d.defaultClassification)
  match fromDefs with
  | some c => c
  | none => jsOrS (some rc.globalSettings.defaultClassification) "neutral"

/-- `applyTimeBasedRules`: a business-hours modifier when the time falls
in the window, else a night-shift modifier when the time falls in the
wrap-around window, else `null`. -/
def applyTimeBasedRules (rc : RulesConfig) (activity : Option String) (timeMin : Nat) :
    Option String :=
  let bh := rc.timeBasedRules.businessHours
  match (if bh.start ≤ timeMin ∧ timeMin ≤ bh.stop then jsTruthyGet bh.modifiers activity
    else none) with
  | some v => some v
  | none =>
    let ns := rc.timeBasedRules.nightShift
    if ns.start ≤ timeMin ∨ timeMin ≤ ns.stop then jsTruthyGet ns.modifiers activity
    else none

/-- `applyGroupOverrides`: the enabled group's override for the activity,
else `null`. -/
def applyGroupOverrides (rc : RulesConfig) (activity : Option String)
    (equipmentGroup : String) : Option String :=
  match jsGet rc.groupSpecificRules equipmentGroup with
  | none => none
  | some groupConfig =>
    if groupConfig.enabled then jsTruthyGet groupConfig.overrides activity else none

/-- `applyContextualRules`: rain modifiers when enabled and raining, then
maintenance-window modifiers when enabled and inside a window, else
`null`. -/
def applyContextualRules (rc : RulesConfig) (activity : Option String)
    (conditions : RuleConditions) : Option String :=
  match (if rc.contextualRules.weatherDependent.enabled ∧ conditions.weather = some "rain" then
      jsTruthyGet rc.contextualRules.weatherDependent.rainModifiers activity
    else none) with
  | some v => some v
  | none =>
    if rc.contextualRules.maintenanceWindows.enabled ∧ conditions.isMaintenanceWindow then
      jsTruthyGet rc.contextualRules.maintenanceWindows.weeklyMaintenanceModifiers activity
    else none

/-- `applyBaseRules`: exact lookup in the telemetry (for `'status'`) or
appointment table, else the intelligent fallback.  With an absent
(`undefined`) activity the fallback's `activity.toLowerCase()` raises a
`TypeError`, modelled as `Except.error`. -/
def applyBaseRules (rc : RulesConfig) (activity : Option String) (activityType : String) :
    Except Unit String :=
  let ruleSet := if activityType = "status" then rc.telemetryRules else rc.appointmentRules
  match jsTruthyGet ruleSet activity with
  | some v => Except.ok v
  | none =>
    match activity with
    | some a => Except.ok (intelligentFallback rc a activityType)
    | none => Except.error ()

/-- `evaluateRules`: the ordered layers — time-based (when enabled and a
timestamp is present), group override (when enabled and a group is
present), contextual (when enabled and conditions are present), then the
base rules with their fallback — first non-null wins. -/
def evaluateRules (rc : RulesConfig) (activity : Option String) (activityType : String)
    (context : RuleContext) : Except Unit String :=
  let layer1 := match rc.globalSettings.enableTimeBasedRules, context.timestamp with
    | true, some t => applyTimeBasedRules rc activity t
    | _, _ => none
  match layer1 with
  | some v => Except.ok v
  | none =>
    let layer2 := match rc.globalSettings.enableGroupOverrides, context.equipmentGroup with
      | true, some g => if g = "" then none else applyGroupOverrides rc activity g
      | _, _ => none
    match layer2 with
    | some v => Except.ok v
    | none =>
      let layer3 := match rc.globalSettings.enableContextualRules, context.conditions with
        | true, some conds => applyContextualRules rc activity conds
        | _, _ => none
      match layer3 with
      | some v => Except.ok v
      | none => applyBaseRules rc activity activityType

/-- `applyIntelligentRules`: `'neutral'` when no rules document is
loaded; otherwise `evaluateRules` inside the `try`/`catch` that turns any
evaluation error into `'neutral'`. -/
def applyIntelligentRules (rulesConfig : Option RulesConfig) (activity : Option String)
    (activityType : String) (context : RuleContext) : String :=
  match rulesConfig with
  | none => "neutral"
  | some rc =>
    match evaluateRules rc activity activityType context with
    | Except.ok c => c
    | Except.error _ => "neutral"

/-- `classifyActivityAdvanced` (analytics module): `'neutral'` when the
rules module is absent or the activity is falsy; otherwise
`applyIntelligentRules` inside a `try`/`catch` returning `'neutral'` (the
embedded `applyIntelligentRules` is already total).  The outer `Option`
models the `productivityRules` module reference, the inner one the
module's possibly-unloaded `rulesConfig`. -/
def classifyActivityAdvanced (productivityRules : Option (Option RulesConfig))
    (activity : Option String) (activityType : String) (context : RuleContext) : String :=
  match productivityRules, activity with
  | none, _ => "neutral"
  | some _, none => "neutral"
  | some rulesConfig, some a =>
    if a = "" then "neutral"
    else applyIntelligentRules rulesConfig (some a) activityType context

/-! ## Rule-document validation and loading (raw JSON level) -/

/-- A parsed JSON value, as `validateAndMigrateRules` receives it. -/
inductive JsonVal where
  | null
  | bool (b : Bool)
  | num (n : ℚ)
  | str (s : String)
  | arr (elems : List JsonVal)
  | obj (fields : List (String × JsonVal))

/-- JavaScript truthiness of a JSON value. -/
def jsTruthyJson : JsonVal → Bool
  | JsonVal.null => false
  | JsonVal.bool b => b
  | JsonVal.num n => decide (n ≠ 0)
  | JsonVal.str s => decide (s ≠ "")
  | JsonVal.arr _ => true
  | JsonVal.obj _ => true

/-- `typeof v === 'object'` for a JSON value (`null` and arrays are
`'object'` in JavaScript). -/
def jsTypeofObject : JsonVal → Bool
  | JsonVal.null => true
  | JsonVal.arr _ => true
  | JsonVal.obj _ => true
  | _ => false

/-- Property lookup on a JSON object's field list. -/
def jlookup (fields : List (String × JsonVal)) (k : String) : Option JsonVal :=
  (fields.find? (fun p => p.1 = k)).map (fun p => p.2)

/-- `Object.entries(v)` value list (an object's field values; an array's
elements). -/
def entriesVals : JsonVal → List JsonVal
  | JsonVal.obj fields => fields.map (fun p => p.2)
  | JsonVal.arr elems => elems
  | _ => []

/-- The `validClassifications` enum of `validateAndMigrateRules`. -/
def validClassifications : List String := ["productive", "non-productive", "neutral"]

/-- `validClassifications.includes(v)` for a JSON entry value (strict
equality: only a string can match). -/
def isValidClassification : JsonVal → Bool
  | JsonVal.str s => validClassifications.contains s
  | _ => false

/-- `!rules[field] || typeof rules[field] !== 'object'`, negated: the
required field is present, truthy and object-typed. -/
def requiredFieldOk (fields : List (String × JsonVal)) (name : String) : Bool :=
  match jlookup fields name with
  | some v => jsTruthyJson v && jsTypeofObject v
  | none => false

/-- `validateAndMigrateRules`, as a predicate on the parsed document: the
document must be a truthy object, the fields `telemetryRules`,
`appointmentRules`, `globalSettings` must be present truthy objects, and
every entry value of `telemetryRules` must be a valid classification.
(The version-migration step in the middle of the source function mutates
the document but cannot change the verdict, and `appointmentRules` entry
values are never inspected.)  A non-object is rejected by the
`typeof` guard; an array passes that guard but has no `telemetryRules`
property, so the first required-field check rejects it. -/
def validateAndMigrateRules (rules : JsonVal) : Bool :=
  match rules with
  | JsonVal.obj fields =>
    requiredFieldOk fields "telemetryRules" &&
    requiredFieldOk fields "appointmentRules" &&
    requiredFieldOk fields "globalSettings" &&
    (((jlookup fields "telemetryRules").map entriesVals).getD []).all isValidClassification
  | _ => false

/-- `loadSavedOrDefaultRules`: a validated GitHub snapshot wins
(`loadRulesFromGitHub` validates with the same predicate and yields
`null` on failure), else a validated local snapshot, else the compiled-in
defaults; parse or fetch failures land in the `catch`, which also
installs the defaults. -/
def loadSavedOrDefaultRules (githubContent savedLocal : Option JsonVal)
    (defaults : JsonVal) : JsonVal :=
  match githubContent.bind (fun g => if validateAndMigrateRules g then some g else none) with
  | some g => g
  | none =>
    match savedLocal with
    | some saved => if validateAndMigrateRules saved then saved else defaults
    | none => defaults

/-! ## The dirty flag and the autosave cycle (rules module) -/

/-- Insert-or-replace on a string-keyed rule table
(`obj[key] = value`). -/
def setRuleKey (m : List (String × String)) (k v : String) : List (String × String) :=
  if (m.find? (fun p => p.1 = k)).isSome then
    m.map (fun p => if p.1 = k then (k, v) else p)
  else m ++ [(k, v)]

/-- The rules module's mutable state relevant to persistence: the loaded
document and the `isDirty` flag. -/
structure RulesModuleState where
  rulesConfig : Option RulesConfig
  isDirty : Bool
  deriving Repr, DecidableEq, Inhabited

/-- A rule suggestion as consumed by `autoAddRule`. -/
structure RuleSuggestion where
  type : String
  activity : String
  suggestedClassification : String
  deriving Repr, DecidableEq, Inhabited

/-- `updateRule`: no-op when no document is loaded (`if (!this.rulesConfig)
return`), otherwise write the key into the telemetry (for `'telemetry'` or
`'status'`) or appointment table and set the dirty flag. -/
def updateRule (st : RulesModuleState) (ruleType key value : String) : RulesModuleState :=
  match st.rulesConfig with
  | none => st
  | some rc =>
    let rc' := if ruleType = "telemetry" ∨ ruleType = "status" then
        { rc with telemetryRules := setRuleKey rc.telemetryRules key value }
      else { rc with appointmentRules := setRuleKey rc.appointmentRules key value }
    { rulesConfig := some rc', isDirty := true }

/-- `autoAddRule`: write the suggested classification into the telemetry
(for `'status'`) or appointment table and set the dirty flag.  The source
dereferences `this.rulesConfig` unguarded, so with no loaded document it
raises; that case is `none`. -/
def autoAddRule (st : RulesModuleState) (suggestion : RuleSuggestion) :
    Option RulesModuleState :=
  st.rulesConfig.map (fun rc =>
    let rc' := if suggestion.type = "status" then
        { rc with telemetryRules :=
            setRuleKey rc.telemetryRules suggestion.activity suggestion.suggestedClassification }
      else
        { rc with appointmentRules :=
            setRuleKey rc.appointmentRules suggestion.activity suggestion.suggestedClassification }
    { rulesConfig := some rc', isDirty := true })

/-- One tick of the `startAutoSave` interval: when dirty, fire
`saveRulesWithBackup()` (without awaiting it) and clear the flag.
`persistSucceeds` is the eventual outcome of that save
(`saveRulesWithBackup` resolves to `false` on any write failure); the
source never reads it, so the flag is cleared no matter the outcome. -/
def startAutoSaveTick (st : RulesModuleState) (_persistSucceeds : Bool) : RulesModuleState :=
  if st.isDirty then { st with isDirty := false } else st

/-! ## Concrete instances used by the claim theorems -/

/-- C2 failing input, first record: `10:00:05–10:30:10`, `running`,
reported duration 1 hour (all times in milliseconds of the day). -/
def dupFirst : StatusRec :=
  { start := 36005000, stop := 37810000, status := "running",
    status_title := some "Operando", vacancy_code := "V1", total_time := 1 }

/-- C2 failing input, second record: `10:00:20–10:30:20`, same status and
source, strictly larger reported duration. -/
def dupSecond : StatusRec :=
  { start := 36020000, stop := 37820000, status := "running",
    status_title := some "Operando", vacancy_code := "V1", total_time := 2 }

/-- Scenario A first interval: `10:00–10:30`, `running`, confidence 0.5. -/
def scenarioARunning : StatusRec :=
  { start := 36000000, stop := 37800000, status := "running",
    status_title := some "Operando", vacancy_code := "V1", total_time := 0,
    confidence := some (1/2) }

/-- Scenario A second interval: `10:20–10:45`, `stopped`, confidence 0.5. -/
def scenarioAStopped : StatusRec :=
  { start := 37200000, stop := 38700000, status := "stopped",
    status_title := some "Parado", vacancy_code := "V1", total_time := 0,
    confidence := some (1/2) }

/-- Scenario D first interval: `08:00–09:00:00`, `running`. -/
def scenarioDFirst : StatusRec :=
  { start := 28800000, stop := 32400000, status := "running",
    status_title := some "Operando", vacancy_code := "V1", total_time := 1 }

/-- Scenario D second interval: `09:00:45–09:10:45`, `running` (45-second
gap to the first). -/
def scenarioDSecond : StatusRec :=
  { start := 32445000, stop := 33045000, status := "running",
    status_title := some "Operando", vacancy_code := "V1", total_time := 1 }

/-- C5 input, first record: `09:00–09:10`, `running`. -/
def idemRunning : StatusRec :=
  { start := 32400000, stop := 33000000, status := "running",
    status_title := some "Operando", vacancy_code := "V1", total_time := 1 }

/-- C5 input, second record: `09:11–09:20`, `off`/"Motor Desligado"
(60-second gap to the first, which the first pass fills). -/
def idemOff : StatusRec :=
  { start := 33060000, stop := 33600000, status := "off",
    status_title := some "Motor Desligado", vacancy_code := "V1", total_time := 1 }

/-- The filler record the first pass inserts between `idemRunning` and
`idemOff` (default fill: `off`/"Motor Desligado", confidence 0.5, one
minute at `09:10`). -/
def idemFiller : StatusRec :=
  { idemRunning with
    status := "off"
    status_title := some "Motor Desligado"
    start := 33000000
    stop := 33060000
    total_time := 1/60
    gap_filled := true
    gap_type := some "default"
    confidence := some (1/2) }

/-- The record a second pass produces by consolidating `idemFiller` with
the adjacent same-status `idemOff`. -/
def idemMerged : StatusRec :=
  { idemFiller with
    stop := 33600000
    total_time := 61/60
    consolidated_count := some 2
    confidence := some (3/5)
    merged_sources := some [33000000, 33060000] }

/-- C1 counterexample, first record: `00:00–00:10`, `running`. -/
def overlapRunning : StatusRec :=
  { start := 0, stop := 600000, status := "running",
    status_title := some "Operando", vacancy_code := "V1", total_time := 1 }

/-- C1 counterexample, second record: starts `00:09:50`, ten seconds
before the first ends (inside the 30-second overlap tolerance), status
`maintenance`. -/
def overlapMaintenance : StatusRec :=
  { start := 590000, stop := 1200000, status := "maintenance",
    status_title := some "Manutenção", vacancy_code := "V1", total_time := 1 }

/-- A short `stopped` flicker (5 seconds) between two `running` records,
used to witness the anomaly-correction contract. -/
def anomalousStopped : StatusRec :=
  { start := 33000000, stop := 33005000, status := "stopped",
    status_title := some "Parado", vacancy_code := "V1", total_time := 0 }

/-- The `running` record following `anomalousStopped`. -/
def anomalousNext : StatusRec :=
  { start := 33005000, stop := 33600000, status := "running",
    status_title := some "Operando", vacancy_code := "V1", total_time := 1 }

/-- A small rules document exercising every layer, used to witness the
layer-precedence and totality theorems. -/
def layeredRulesConfig : RulesConfig :=
  { telemetryRules := [("running", "productive")]
    appointmentRules := []
    groupSpecificRules := [("Caminhões", { enabled := true, overrides := [("running", "neutral")] })]
    timeBasedRules :=
      { businessHours := { start := 360, stop := 1080, modifiers := [("running", "non-productive")] }
        nightShift := { start := 1080, stop := 360, modifiers := [] } }
    contextualRules :=
      { weatherDependent := { enabled := false, rainModifiers := [] }
        maintenanceWindows := { enabled := false, weeklyMaintenanceModifiers := [] } }
    globalSettings :=
      { enableTimeBasedRules := true, enableGroupOverrides := true,
        enableContextualRules := true, defaultClassification := "neutral" } }

/-- Modelled from the spec (for comparison with the source validator):
"every classification value in the document is one of
{productive, non-productive, neutral}" — over both the `telemetryRules`
and the `appointmentRules` entry values. -/
def specAllClassValuesValid (rules : JsonVal) : Bool :=
  match rules with
  | JsonVal.obj fields =>
    (((jlookup fields "telemetryRules").map entriesVals).getD []).all isValidClassification &&
    (((jlookup fields "appointmentRules").map entriesVals).getD []).all isValidClassification
  | _ => false

/-- C9 counterexample document: well-formed, valid `telemetryRules`, but
an `appointmentRules` entry with the invalid class value `"bogus"`. -/
def badAppointmentDoc : JsonVal :=
  JsonVal.obj
    [("telemetryRules", JsonVal.obj [("running", JsonVal.str "productive")]),
     ("appointmentRules", JsonVal.obj [("Documentação", JsonVal.str "bogus")]),
     ("globalSettings", JsonVal.obj [])]

/-! ## Claim theorems -/

/-- C2 (code bug evaluation): two records of one asset whose start and end
round to the same minute, with equal status and `vacancy_code`, where the
second carries the strictly larger reported duration.  The dedup filter
keeps BOTH records (the first was already accepted before the collision is
seen), so the dedup key does not map to exactly one surviving record as
the claim states. -/
theorem removeDuplicates_keeps_larger_duplicate :
    dedupKey dupFirst = dedupKey dupSecond ∧
    dupSecond.total_time > dupFirst.total_time ∧
    removeDuplicatesAdvanced [dupFirst, dupSecond] = [dupFirst, dupSecond] ∧
    (removeDuplicatesAdvanced [dupFirst, dupSecond]).length ≠ 1 := by
  refine ⟨by decide, by decide, by decide, by decide⟩

/-- C7: layer precedence of `evaluateRules`.  (a) When the time-based
layer is enabled and produces a modifier for the activity, that modifier
is the result — in particular it takes effect over any applicable group
override.  (b) When the time-based layer is off, lacks a timestamp, or
produces nothing, an applicable group override is the result — in
particular it takes effect over the base mapping, which is never
consulted. -/
theorem evaluateRules_layer_precedence (rc : RulesConfig) (activity : Option String)
    (activityType : String) (context : RuleContext) (ts : Nat) (g c t : String) :
    (rc.globalSettings.enableTimeBasedRules = true → context.timestamp = some ts →
      applyTimeBasedRules rc activity ts = some t →
      evaluateRules rc activity activityType context = Except.ok t) ∧
    ((rc.globalSettings.enableTimeBasedRules = false ∨ context.timestamp = none ∨
        (context.timestamp = some ts ∧ applyTimeBasedRules rc activity ts = none)) →
      rc.globalSettings.enableGroupOverrides = true → context.equipmentGroup = some g →
      g ≠ "" → applyGroupOverrides rc activity g = some c →
      evaluateRules rc activity activityType context = Except.ok c) := by
  constructor
  · intro hEn hTs hLayer
    simp [evaluateRules, hEn, hTs, hLayer]
  · intro hTime hEnG hG hNe hLayer
    have hLayer1 :
        (match rc.globalSettings.enableTimeBasedRules, context.timestamp with
          | true, some t' => applyTimeBasedRules rc activity t'
          | _, _ => none) = (none : Option String) := by
      rcases hTime with h | h | ⟨h1, h2⟩
      · simp [h]
      · simp [h]
      · cases hEn : rc.globalSettings.enableTimeBasedRules <;> simp [hEn, h1, h2]
    simp [evaluateRules, hLayer1, hEnG, hG, hNe, hLayer]

/-- C7 witness: with `layeredRulesConfig`, at 10:00 the business-hours
window overrides the group override for `running`; with no timestamp the
`Caminhões` group override takes effect over the base telemetry mapping
(`productive`). -/
theorem evaluateRules_layer_precedence_witness :
    evaluateRules layeredRulesConfig (some "running") "status"
      { timestamp := some 600, equipmentGroup := some "Caminhões", conditions := none } =
      Except.ok "non-productive" ∧
    evaluateRules layeredRulesConfig (some "running") "status"
      { timestamp := none, equipmentGroup := some "Caminhões", conditions := none } =
      Except.ok "neutral" := by
  constructor
  · exact (evaluateRules_layer_precedence layeredRulesConfig (some "running") "status"
      { timestamp := some 600, equipmentGroup := some "Caminhões", conditions := none }
      600 "Caminhões" "neutral" "non-productive").1 (by decide) rfl
      (by decide)
  · exact (evaluateRules_layer_precedence layeredRulesConfig (some "running") "status"
      { timestamp := none, equipmentGroup := some "Caminhões", conditions := none }
      600 "Caminhões" "neutral" "non-productive").2 (Or.inr (Or.inl rfl)) (by decide) rfl
      (by decide) (by decide)

/-- C8: classification is total and defaults on failure.  The embedded
`classifyActivityAdvanced` is a total function; an absent rules module,
an absent or empty activity, or an unloaded rules document yields the
global default `'neutral'`; and any evaluation failure inside the layers
(the `Except.error` of `evaluateRules`, e.g. the `TypeError` on an
undefined activity reaching the fallback) is caught and also yields
`'neutral'`. -/
theorem classifyActivity_total (productivityRules : Option (Option RulesConfig))
    (rulesConfig : Option RulesConfig) (activity : Option String) (activityType : String)
    (context : RuleContext) (rc : RulesConfig) :
    (∃ c, classifyActivityAdvanced productivityRules activity activityType context = c) ∧
    (productivityRules = none ∨ activity = none ∨ activity = some "" →
      classifyActivityAdvanced productivityRules activity activityType context = "neutral") ∧
    (rulesConfig = none →
      applyIntelligentRules rulesConfig activity activityType context = "neutral") ∧
    (evaluateRules rc activity activityType context = Except.error () →
      applyIntelligentRules (some rc) activity activityType context = "neutral") := by
  refine ⟨⟨_, rfl⟩, ?_, ?_, ?_⟩
  · rintro (h | h | h) <;> cases productivityRules <;> simp [h, classifyActivityAdvanced]
  · intro h
    simp [h, applyIntelligentRules]
  · intro h
    simp [applyIntelligentRules, h]

/-- C8 witness: the failure cases at concrete inputs — absent activity,
and an evaluation error (no layers enabled, absent activity reaching the
fallback). -/
theorem classifyActivity_total_witness :
    classifyActivityAdvanced (some (some layeredRulesConfig)) none "status"
      { timestamp := none, equipmentGroup := none, conditions := none } = "neutral" ∧
    applyIntelligentRules (some default) none "status"
      { timestamp := none, equipmentGroup := none, conditions := none } = "neutral" := by
  constructor
  · exact (classifyActivity_total (some (some layeredRulesConfig)) none none "status"
      { timestamp := none, equipmentGroup := none, conditions := none } default).2.1
      (Or.inr (Or.inl rfl))
  · exact (classifyActivity_total (some (some layeredRulesConfig)) (some default) none "status"
      { timestamp := none, equipmentGroup := none, conditions := none } default).2.2.2
      (by rfl)

/-- C9 counterexample: a document whose `appointmentRules` carries the
invalid class value `"bogus"` is nevertheless accepted by
`validateAndMigrateRules` (the validator only inspects `telemetryRules`
entry values), contradicting the claim that such a document is
rejected. -/
theorem validateRules_accepts_bad_appointment :
    validateAndMigrateRules badAppointmentDoc = true ∧
    specAllClassValuesValid badAppointmentDoc = false := by
  refine ⟨by decide, by decide⟩

/-- C9 amended: a document is accepted only if `telemetryRules`,
`appointmentRules` and `globalSettings` are present as truthy
object-typed fields and every `telemetryRules` entry value is in the
allowed enum (`appointmentRules` values are not checked); any document
failing validation is rejected and the compiled-in defaults are
substituted by the loader. -/
theorem validateRules_required_fields (rules defaults : JsonVal) :
    (validateAndMigrateRules rules = true →
      ∃ fields, rules = JsonVal.obj fields ∧
        requiredFieldOk fields "telemetryRules" = true ∧
        requiredFieldOk fields "appointmentRules" = true ∧
        requiredFieldOk fields "globalSettings" = true ∧
        ∀ v ∈ (((jlookup fields "telemetryRules").map entriesVals).getD []),
          isValidClassification v = true) ∧
    (validateAndMigrateRules rules = false →
      loadSavedOrDefaultRules none (some rules) defaults = defaults) := by
  constructor
  · intro h
    cases rules with
    | obj fields =>
      refine ⟨fields, rfl, ?_⟩
      simp only [validateAndMigrateRules, Bool.and_eq_true, List.all_eq_true] at h
      exact ⟨h.1.1.1, h.1.1.2, h.1.2, h.2⟩
    | null => simp [validateAndMigrateRules] at h
    | bool b => simp [validateAndMigrateRules] at h
    | num n => simp [validateAndMigrateRules] at h
    | str s => simp [validateAndMigrateRules] at h
    | arr elems => simp [validateAndMigrateRules] at h
  · intro h
    simp [loadSavedOrDefaultRules, h]

/-- C9 amended witness: the accepted bad-appointment document satisfies
the required-field conditions, and a rejected document (here `null`) is
replaced by the defaults. -/
theorem validateRules_required_fields_witness :
    (∃ fields, badAppointmentDoc = JsonVal.obj fields ∧
      requiredFieldOk fields "telemetryRules" = true ∧
      requiredFieldOk fields "appointmentRules" = true ∧
      requiredFieldOk fields "globalSettings" = true ∧
      ∀ v ∈ (((jlookup fields "telemetryRules").map entriesVals).getD []),
        isValidClassification v = true) ∧
    loadSavedOrDefaultRules none (some JsonVal.null) (JsonVal.obj []) = JsonVal.obj [] := by
  constructor
  · exact (validateRules_required_fields badAppointmentDoc (JsonVal.obj [])).1 (by decide)
  · exact (validateRules_required_fields JsonVal.null (JsonVal.obj [])).2 (by decide)

/-- C10 counterexample: with a dirty state and a failing persist
(`saveRulesWithBackup` resolving `false`), the autosave tick still clears
the dirty flag — the claim that the flag is cleared only on success (and
retained on failure) is false. -/
theorem autoSaveTick_clears_on_failure :
    ¬ ((startAutoSaveTick { rulesConfig := some default, isDirty := true } false).isDirty
      = true) := by
  decide

/-- C10 amended: every successful mutation (`updateRule` on a loaded
document, `autoAddRule`) sets the dirty flag; the autosave tick, once the
flag is dirty, clears it unconditionally — independently of the persist
outcome — and does nothing when clean.  A failed persist is therefore not
retried through the dirty flag. -/
theorem dirty_flag_cycle (st : RulesModuleState) (ruleType key value : String)
    (suggestion : RuleSuggestion) (outcome : Bool) :
    (st.rulesConfig.isSome = true → (updateRule st ruleType key value).isDirty = true) ∧
    (∀ st', autoAddRule st suggestion = some st' → st'.isDirty = true) ∧
    (st.isDirty = true → (startAutoSaveTick st outcome).isDirty = false) ∧
    (st.isDirty = false → startAutoSaveTick st outcome = st) := by
  refine ⟨?_, ?_, ?_, ?_⟩
  · intro h
    cases hrc : st.rulesConfig with
    | none => rw [hrc] at h; simp at h
    | some rc => simp [updateRule, hrc]
  · intro st' h
    simp only [autoAddRule] at h
    cases hrc : st.rulesConfig with
    | none => rw [hrc] at h; simp at h
    | some rc =>
      rw [hrc] at h
      simp only [Option.map_some'] at h
      cases h
      rfl
  · intro h
    simp [startAutoSaveTick, h]
  · intro h
    simp [startAutoSaveTick, h]

/-- C10 amended witness: a concrete edit sets the flag, and a failing
persist still sees the flag cleared by the tick. -/
theorem dirty_flag_cycle_witness :
    (updateRule { rulesConfig := some default, isDirty := false } "telemetry" "running"
      "productive").isDirty = true ∧
    (startAutoSaveTick { rulesConfig := some default, isDirty := true } false).isDirty
      = false := by
  constructor
  · exact (dirty_flag_cycle { rulesConfig := some default, isDirty := false } "telemetry"
      "running" "productive" ⟨"status", "x", "neutral"⟩ false).1 (by decide)
  · exact (dirty_flag_cycle { rulesConfig := some default, isDirty := true } "t" "k" "v"
      ⟨"status", "x", "neutral"⟩ false).2.2.1 (by decide)

/-! ## Stage-evaluation helpers for the concrete scenarios -/

/-- Helper: consolidation passes length-one lists through. -/
theorem consolidate_singleton (cfg : CoreConfig) (x : StatusRec) :
    consolidateConsecutiveAdvanced cfg [x] = [x] := by
  simp [consolidateConsecutiveAdvanced]

/-- Helper: gap filling passes length-one lists through. -/
theorem fillGaps_singleton (cfg : CoreConfig) (g : String) (x : StatusRec) :
    fillSmallGapsIntelligent cfg g [x] = [x] := by
  simp [fillSmallGapsIntelligent]

/-- Helper: anomaly correction passes lists shorter than three through. -/
theorem applyML_short (l : List StatusRec) (h : l.length < 3) :
    applyMLOptimizations l = l := by
  simp [applyMLOptimizations, h]

/-- Helper: the consolidation loop seeds its running record. -/
theorem consolidateStep_init (cfg : CoreConfig) (out : List StatusRec) (s : StatusRec) :
    consolidateStep cfg (out, none) s = (out, some s) := rfl

/-- Helper: the consolidation loop merges when the condition holds. -/
theorem consolidateStep_merge (cfg : CoreConfig) (out : List StatusRec) (cur s : StatusRec)
    (h : (cur.status = s.status ∧ cur.status_title = s.status_title ∧
        |((s.start - cur.stop : Int) : ℚ) / 1000| ≤ getAdaptiveTolerance cfg cur.status s.status) ∨
      (areStatusesCompatible cur.status s.status = true ∧
        |((s.start - cur.stop : Int) : ℚ) / 1000| ≤ 30)) :
    consolidateStep cfg (out, some cur) s = (out, some (mergeStatusAdvanced cur s)) := by
  simp only [consolidateStep, if_pos h]

/-- Helper: the consolidation loop flushes when the condition fails. -/
theorem consolidateStep_push (cfg : CoreConfig) (out : List StatusRec) (cur s : StatusRec)
    (h : ¬ ((cur.status = s.status ∧ cur.status_title = s.status_title ∧
        |((s.start - cur.stop : Int) : ℚ) / 1000| ≤ getAdaptiveTolerance cfg cur.status s.status) ∨
      (areStatusesCompatible cur.status s.status = true ∧
        |((s.start - cur.stop : Int) : ℚ) / 1000| ≤ 30))) :
    consolidateStep cfg (out, some cur) s = (out ++ [cur], some s) := by
  simp only [consolidateStep, if_neg h]

/-- Helper: the conflict action of scenario A under the priority strategy
is an outright win for the running side. -/
theorem conflictA_action : resolveConflictAdvanced coreConfigDefault "Outros"
    scenarioARunning scenarioAStopped = ConflictAction.priority_enhanced true := by
  have h1 : compositeScore "Outros" scenarioARunning = 22/5 := by
    simp [compositeScore, statusPriority, getContextScore, jsOrQ, scenarioARunning]
    norm_num
  have h2 : compositeScore "Outros" scenarioAStopped = 19/5 := by
    simp [compositeScore, statusPriority, getContextScore, jsOrQ, scenarioAStopped]
    norm_num
  have habs : |compositeScore "Outros" scenarioARunning - compositeScore "Outros" scenarioAStopped|
      = 3/5 := by
    rw [h1, h2]
    norm_num [abs_of_pos]
  have hq : ((22:ℚ)/5 > 19/5) := by norm_num
  simp only [resolveConflictAdvanced, coreConfigDefault, ite_true, if_true]
  rw [habs, h1, h2]
  rw [if_pos (by norm_num)]
  simp [hq]

/-- Helper: the score gap of scenario A is 0.6. -/
theorem scoreA_gap : |compositeScore "Outros" scenarioARunning -
    compositeScore "Outros" scenarioAStopped| = 3/5 := by
  have h1 : compositeScore "Outros" scenarioARunning = 22/5 := by
    simp [compositeScore, statusPriority, getContextScore, jsOrQ, scenarioARunning]
    norm_num
  have h2 : compositeScore "Outros" scenarioAStopped = 19/5 := by
    simp [compositeScore, statusPriority, getContextScore, jsOrQ, scenarioAStopped]
    norm_num
  rw [h1, h2]
  norm_num [abs_of_pos]

/-- Helper: dedup keeps both scenario A intervals (distinct keys). -/
theorem dedupA_eval : removeDuplicatesAdvanced [scenarioARunning, scenarioAStopped] =
    [scenarioARunning, scenarioAStopped] := by
  norm_num [removeDuplicatesAdvanced, removeDuplicatesStep, List.foldl, dedupKey, roundMinute, scenarioARunning,
    scenarioAStopped, List.find?, Int.fdiv]

/-- Helper: the scenario A intervals are already sorted. -/
theorem sortA_eval : [scenarioARunning, scenarioAStopped].insertionSort startLE =
    [scenarioARunning, scenarioAStopped] := by
  norm_num [List.insertionSort, List.orderedInsert, startLE, scenarioARunning, scenarioAStopped]

/-- Helper: overlap resolution of scenario A yields the extended running
interval. -/
theorem overlapsA_eval : resolveOverlapsAdvanced coreConfigDefault "Outros"
    [scenarioARunning, scenarioAStopped] =
    [{ scenarioARunning with confidence := some (3/5), stop := 38700000 }] := by
  simp only [resolveOverlapsAdvanced, flushCurrent, List.foldl, resolveOverlapsStep,
    List.length_cons, List.length_nil]
  rw [if_neg (by norm_num)]
  rw [conflictA_action]
  simp only [scenarioARunning, scenarioAStopped]
  norm_num [jsOrQ]

/-- Helper: the full pipeline on scenario A. -/
theorem pipelineA_eval : resolveStatusConflictsAdvanced coreConfigDefault "Outros"
    [scenarioARunning, scenarioAStopped] =
    [{ scenarioARunning with confidence := some (3/5), stop := 38700000 }] := by
  simp only [resolveStatusConflictsAdvanced, List.isEmpty_cons, Bool.false_eq_true,
    if_false, dedupA_eval, sortA_eval, overlapsA_eval, consolidate_singleton,
    fillGaps_singleton]
  exact applyML_short _ (by simp)

/-- C3 counterexample: in scenario A the composite scores differ by 0.6,
not at most 0.2, and the resolver does not perform a weighted merge. -/
theorem scenarioA_no_weighted_merge :
    ¬ (|compositeScore "Outros" scenarioARunning -
        compositeScore "Outros" scenarioAStopped| ≤ 2/10) ∧
    ∀ w1 w2, resolveConflictAdvanced coreConfigDefault "Outros" scenarioARunning
      scenarioAStopped ≠ ConflictAction.merge_weighted w1 w2 := by
  constructor
  · rw [scoreA_gap]
    norm_num
  · intro w1 w2
    rw [conflictA_action]
    simp

/-- C3 amended: in scenario A the composite scores differ by 0.6 (> 0.2),
so the priority strategy resolves the conflict by an outright win of the
higher-scoring `running` interval rather than a weighted merge; the
pipeline still produces a single interval spanning 10:00–10:45, with
status `running` and confidence raised to 0.6. -/
theorem scenarioA_outright_win :
    |compositeScore "Outros" scenarioARunning -
      compositeScore "Outros" scenarioAStopped| = 3/5 ∧
    resolveConflictAdvanced coreConfigDefault "Outros" scenarioARunning scenarioAStopped =
      ConflictAction.priority_enhanced true ∧
    resolveStatusConflictsAdvanced coreConfigDefault "Outros"
      [scenarioARunning, scenarioAStopped] =
      [{ scenarioARunning with confidence := some (3/5), stop := 38700000 }] :=
  ⟨scoreA_gap, conflictA_action, pipelineA_eval⟩

/-- Helper: dedup keeps both scenario D intervals (distinct keys). -/
theorem dedupD_eval : removeDuplicatesAdvanced [scenarioDFirst, scenarioDSecond] =
    [scenarioDFirst, scenarioDSecond] := by
  norm_num [removeDuplicatesAdvanced, removeDuplicatesStep, List.foldl, dedupKey, roundMinute, scenarioDFirst,
    scenarioDSecond, List.find?, Int.fdiv]

/-- Helper: the scenario D intervals are already sorted. -/
theorem sortD_eval : [scenarioDFirst, scenarioDSecond].insertionSort startLE =
    [scenarioDFirst, scenarioDSecond] := by
  norm_num [List.insertionSort, List.orderedInsert, startLE, scenarioDFirst, scenarioDSecond]

/-- Helper: no temporal overlap in scenario D. -/
theorem overlapsD_eval : resolveOverlapsAdvanced coreConfigDefault "Outros"
    [scenarioDFirst, scenarioDSecond] = [scenarioDFirst, scenarioDSecond] := by
  simp only [resolveOverlapsAdvanced, flushCurrent, List.foldl, resolveOverlapsStep,
    List.length_cons, List.length_nil]
  rw [if_neg (by norm_num)]
  simp [scenarioDFirst, scenarioDSecond]

/-- Helper: the adaptive tolerance of a running/running pair at base
tolerance 60 seconds is 30 seconds (`60 × 0.5` on both sides). -/
theorem adaptiveTolD_eval : getAdaptiveTolerance coreConfigDefault "running" "running" = 30 := by
  simp [getAdaptiveTolerance, coreConfigDefault]
  norm_num

/-- Helper: consolidation does not merge the scenario D pair (the
45-second gap exceeds the 30-second adaptive tolerance). -/
theorem consolidateD_eval : consolidateConsecutiveAdvanced coreConfigDefault
    [scenarioDFirst, scenarioDSecond] = [scenarioDFirst, scenarioDSecond] := by
  simp only [consolidateConsecutiveAdvanced, flushCurrent, List.foldl, consolidateStep,
    List.length_cons, List.length_nil]
  rw [if_neg (by norm_num)]
  rw [if_neg ?hcond]
  case hcond =>
    simp only [scenarioDFirst, scenarioDSecond]
    simp [getAdaptiveTolerance, coreConfigDefault, areStatusesCompatible]
    have habs : |(45000:ℚ)/1000| = 45 := by
      rw [abs_of_nonneg] <;> norm_num
    simp only [habs]
    norm_num
  rfl

/-- Helper: the filler synthesized for scenario D is the default `off`
fill over the 45-second gap. -/
theorem fillerD_eval : fillerRecord "Outros" scenarioDFirst scenarioDSecond =
    { scenarioDFirst with
      status := "off"
      status_title := some "Motor Desligado"
      start := 32400000
      stop := 32445000
      total_time := 1/80
      gap_filled := true
      gap_type := some "default"
      confidence := some (1/2) } := by
  simp [fillerRecord, chooseFillStatus, fillRules, jsGet, scenarioDFirst, scenarioDSecond]
  norm_num

/-- Helper: gap filling inserts the filler in scenario D
(`0 < 45 ≤ 2 × 60`). -/
theorem fillD_eval : fillSmallGapsIntelligent coreConfigDefault "Outros"
    [scenarioDFirst, scenarioDSecond] =
    [scenarioDFirst, fillerRecord "Outros" scenarioDFirst scenarioDSecond, scenarioDSecond] := by
  simp only [fillSmallGapsIntelligent, fillGapsLoop, List.length_cons, List.length_nil]
  rw [if_neg (by norm_num)]
  rw [if_pos ?hgap]
  case hgap =>
    simp only [scenarioDFirst, scenarioDSecond, coreConfigDefault]
    norm_num

/-- Helper: the anomaly pass leaves the filled scenario D sequence
unchanged (running→off→running matches no anomalous pattern). -/
theorem applyMLD_eval : applyMLOptimizations
    [scenarioDFirst, fillerRecord "Outros" scenarioDFirst scenarioDSecond, scenarioDSecond] =
    [scenarioDFirst, fillerRecord "Outros" scenarioDFirst scenarioDSecond, scenarioDSecond] := by
  have hanom : isAnomalousSequence scenarioDFirst
      (fillerRecord "Outros" scenarioDFirst scenarioDSecond) scenarioDSecond = false := by
    decide
  simp [applyMLOptimizations, List.mapIdx_eq_enum_map, List.enum, applyMLStep, hanom]

/-- Helper: the full pipeline on scenario D yields three intervals. -/
theorem pipelineD_eval : resolveStatusConflictsAdvanced coreConfigDefault "Outros"
    [scenarioDFirst, scenarioDSecond] =
    [scenarioDFirst, fillerRecord "Outros" scenarioDFirst scenarioDSecond, scenarioDSecond] := by
  simp only [resolveStatusConflictsAdvanced, List.isEmpty_cons, Bool.false_eq_true,
    if_false, dedupD_eval, sortD_eval, overlapsD_eval, consolidateD_eval, fillD_eval,
    applyMLD_eval]

/-- C4 counterexample: with baseTolerance 60 s the adaptive tolerance of
the running/running pair is 30 s, so the 45-second gap of scenario D is
NOT absorbed: the consolidation pass leaves both intervals separate and
the pipeline does not produce one merged interval. -/
theorem scenarioD_not_consolidated :
    getAdaptiveTolerance coreConfigDefault "running" "running" = 30 ∧
    consolidateConsecutiveAdvanced coreConfigDefault [scenarioDFirst, scenarioDSecond] =
      [scenarioDFirst, scenarioDSecond] ∧
    (resolveStatusConflictsAdvanced coreConfigDefault "Outros"
      [scenarioDFirst, scenarioDSecond]).length ≠ 1 := by
  refine ⟨adaptiveTolD_eval, consolidateD_eval, ?_⟩
  rw [pipelineD_eval]
  simp

/-- C4 amended: the 45-second running/running gap of scenario D is not
consolidated (adaptive tolerance `60 × 0.5 = 30 s` on both sides); since
`0 < 45 ≤ 2 × 60`, the gap-fill stage instead synthesizes a default
`off`/"Motor Desligado" filler spanning 09:00:00–09:00:45, so the
pipeline returns three intervals. -/
theorem scenarioD_gap_filled :
    resolveStatusConflictsAdvanced coreConfigDefault "Outros"
      [scenarioDFirst, scenarioDSecond] =
      [scenarioDFirst, fillerRecord "Outros" scenarioDFirst scenarioDSecond, scenarioDSecond] ∧
    fillerRecord "Outros" scenarioDFirst scenarioDSecond =
      { scenarioDFirst with
        status := "off"
        status_title := some "Motor Desligado"
        start := 32400000
        stop := 32445000
        total_time := 1/80
        gap_filled := true
        gap_type := some "default"
        confidence := some (1/2) } :=
  ⟨pipelineD_eval, fillerD_eval⟩

/-- Helper: dedup keeps both C1 counterexample intervals (distinct keys). -/
theorem dedupOv_eval : removeDuplicatesAdvanced [overlapRunning, overlapMaintenance] =
    [overlapRunning, overlapMaintenance] := by
  norm_num [removeDuplicatesAdvanced, removeDuplicatesStep, List.foldl, dedupKey, roundMinute, overlapRunning,
    overlapMaintenance, List.find?, Int.fdiv]

/-- Helper: the C1 counterexample intervals are already sorted. -/
theorem sortOv_eval : [overlapRunning, overlapMaintenance].insertionSort startLE =
    [overlapRunning, overlapMaintenance] := by
  norm_num [List.insertionSort, List.orderedInsert, startLE, overlapRunning, overlapMaintenance]

/-- Helper: a ten-second overlap is inside the 30-second tolerance, so
overlap resolution flushes both records untouched. -/
theorem overlapsOv_eval : resolveOverlapsAdvanced coreConfigDefault "Outros"
    [overlapRunning, overlapMaintenance] = [overlapRunning, overlapMaintenance] := by
  simp [resolveOverlapsAdvanced, flushCurrent, List.foldl, resolveOverlapsStep, overlapRunning,
    overlapMaintenance]

/-- Helper: consolidation does not touch the running/maintenance pair. -/
theorem consolidateOv_eval : consolidateConsecutiveAdvanced coreConfigDefault
    [overlapRunning, overlapMaintenance] = [overlapRunning, overlapMaintenance] := by
  simp [consolidateConsecutiveAdvanced, flushCurrent, List.foldl, consolidateStep,
    areStatusesCompatible,
    overlapRunning, overlapMaintenance]

/-- Helper: a negative gap is never filled. -/
theorem fillOv_eval : fillSmallGapsIntelligent coreConfigDefault "Outros"
    [overlapRunning, overlapMaintenance] = [overlapRunning, overlapMaintenance] := by
  simp only [fillSmallGapsIntelligent, fillGapsLoop, List.length_cons, List.length_nil]
  rw [if_neg (by norm_num)]
  rw [if_neg ?hgap]
  case hgap =>
    simp only [overlapRunning, overlapMaintenance]
    norm_num

/-- Helper: the full pipeline passes the ten-second overlap through. -/
theorem pipelineOv_eval : resolveStatusConflictsAdvanced coreConfigDefault "Outros"
    [overlapRunning, overlapMaintenance] = [overlapRunning, overlapMaintenance] := by
  simp only [resolveStatusConflictsAdvanced, List.isEmpty_cons, Bool.false_eq_true,
    if_false, dedupOv_eval, sortOv_eval, overlapsOv_eval, consolidateOv_eval, fillOv_eval]
  exact applyML_short _ (by simp)

/-- C1 counterexample: two raw intervals overlapping by ten seconds (at
most the 30-second tolerance of `resolveOverlapsAdvanced`) survive the
whole pipeline unchanged, so the resolved sequence violates
`resolved[i].end ≤ resolved[i+1].start` even though every input interval
satisfies `start < end`. -/
theorem pipeline_overlap_survives :
    resolveStatusConflictsAdvanced coreConfigDefault "Outros"
      [overlapRunning, overlapMaintenance] = [overlapRunning, overlapMaintenance] ∧
    ¬ (overlapRunning.stop ≤ overlapMaintenance.start) ∧
    overlapRunning.start < overlapRunning.stop ∧
    overlapMaintenance.start < overlapMaintenance.stop := by
  exact ⟨pipelineOv_eval, by decide, by decide, by decide⟩

/-- Helper: the filler the first pass inserts between the C5 records. -/
theorem fillerIdem_eval : fillerRecord "Outros" idemRunning idemOff = idemFiller := by
  simp [fillerRecord, chooseFillStatus, fillRules, jsGet, idemRunning, idemOff, idemFiller]
  norm_num

/-- Helper: dedup keeps both C5 input records. -/
theorem dedupIdem1_eval : removeDuplicatesAdvanced [idemRunning, idemOff] =
    [idemRunning, idemOff] := by
  norm_num [removeDuplicatesAdvanced, removeDuplicatesStep, List.foldl, dedupKey, roundMinute, idemRunning,
    idemOff, List.find?, Int.fdiv]

/-- Helper: the C5 input records are already sorted. -/
theorem sortIdem1_eval : [idemRunning, idemOff].insertionSort startLE =
    [idemRunning, idemOff] := by
  norm_num [List.insertionSort, List.orderedInsert, startLE, idemRunning, idemOff]

/-- Helper: no overlap between the C5 input records. -/
theorem overlapsIdem1_eval : resolveOverlapsAdvanced coreConfigDefault "Outros"
    [idemRunning, idemOff] = [idemRunning, idemOff] := by
  simp [resolveOverlapsAdvanced, flushCurrent, List.foldl, resolveOverlapsStep, idemRunning, idemOff]

/-- Helper: running/off is not consolidated. -/
theorem consolidateIdem1_eval : consolidateConsecutiveAdvanced coreConfigDefault
    [idemRunning, idemOff] = [idemRunning, idemOff] := by
  simp [consolidateConsecutiveAdvanced, flushCurrent, List.foldl, consolidateStep,
    areStatusesCompatible,
    idemRunning, idemOff]

/-- Helper: the 60-second gap is filled on the first pass. -/
theorem fillIdem1_eval : fillSmallGapsIntelligent coreConfigDefault "Outros"
    [idemRunning, idemOff] = [idemRunning, idemFiller, idemOff] := by
  simp only [fillSmallGapsIntelligent, fillGapsLoop, List.length_cons, List.length_nil]
  rw [if_neg (by norm_num)]
  rw [if_pos ?hgap]
  case hgap =>
    simp only [idemRunning, idemOff, coreConfigDefault]
    norm_num
  rw [fillerIdem_eval]

/-- Helper: the anomaly pass leaves the filled C5 sequence unchanged. -/
theorem applyMLIdem1_eval : applyMLOptimizations [idemRunning, idemFiller, idemOff] =
    [idemRunning, idemFiller, idemOff] := by
  have hanom : isAnomalousSequence idemRunning idemFiller idemOff = false := by decide
  simp [applyMLOptimizations, List.mapIdx_eq_enum_map, List.enum, applyMLStep, hanom]

/-- Helper: the first pipeline pass on the C5 input. -/
theorem pipelineIdem1_eval : resolveStatusConflictsAdvanced coreConfigDefault "Outros"
    [idemRunning, idemOff] = [idemRunning, idemFiller, idemOff] := by
  simp only [resolveStatusConflictsAdvanced, List.isEmpty_cons, Bool.false_eq_true,
    if_false, dedupIdem1_eval, sortIdem1_eval, overlapsIdem1_eval, consolidateIdem1_eval,
    fillIdem1_eval, applyMLIdem1_eval]

/-- Helper: dedup keeps all three first-pass records (distinct keys). -/
theorem dedupIdem2_eval : removeDuplicatesAdvanced [idemRunning, idemFiller, idemOff] =
    [idemRunning, idemFiller, idemOff] := by
  norm_num [removeDuplicatesAdvanced, removeDuplicatesStep, List.foldl, dedupKey, roundMinute, idemRunning,
    idemFiller, idemOff, List.find?, Int.fdiv]

/-- Helper: the first-pass output is already sorted. -/
theorem sortIdem2_eval : [idemRunning, idemFiller, idemOff].insertionSort startLE =
    [idemRunning, idemFiller, idemOff] := by
  norm_num [List.insertionSort, List.orderedInsert, startLE, idemRunning, idemFiller, idemOff]

/-- Helper: the flush first-pass output has no overlaps. -/
theorem overlapsIdem2_eval : resolveOverlapsAdvanced coreConfigDefault "Outros"
    [idemRunning, idemFiller, idemOff] = [idemRunning, idemFiller, idemOff] := by
  simp [resolveOverlapsAdvanced, flushCurrent, List.foldl, resolveOverlapsStep, idemRunning, idemFiller,
    idemOff]

/-- Helper: the second pass consolidates the filler with the adjacent
same-status `off` record (gap 0 within the adaptive tolerance 90 s). -/
theorem consolidateIdem2_eval : consolidateConsecutiveAdvanced coreConfigDefault
    [idemRunning, idemFiller, idemOff] = [idemRunning, idemMerged] := by
  have h1 : consolidateStep coreConfigDefault ([], none) idemRunning = ([], some idemRunning) :=
    consolidateStep_init _ _ _
  have h2 : consolidateStep coreConfigDefault ([], some idemRunning) idemFiller =
      ([] ++ [idemRunning], some idemFiller) := by
    refine consolidateStep_push _ _ _ _ ?_
    simp [idemRunning, idemFiller, areStatusesCompatible]
  have h3 : consolidateStep coreConfigDefault ([] ++ [idemRunning], some idemFiller) idemOff =
      ([] ++ [idemRunning], some (mergeStatusAdvanced idemFiller idemOff)) := by
    refine consolidateStep_merge _ _ _ _ (Or.inl ⟨?_, ?_, ?_⟩)
    · simp [idemFiller, idemOff]
    · simp [idemFiller, idemOff]
    · simp [idemFiller, idemOff, idemRunning, getAdaptiveTolerance, coreConfigDefault]
      norm_num
  have hm : mergeStatusAdvanced idemFiller idemOff = idemMerged := by
    simp [mergeStatusAdvanced, idemFiller, idemOff, idemMerged, idemRunning, jsOrQ, jsOrN]
    norm_num
  simp only [consolidateConsecutiveAdvanced, flushCurrent, List.length_cons, List.length_nil]
  rw [if_neg (by norm_num)]
  rw [List.foldl_cons, h1, List.foldl_cons, h2, List.foldl_cons, h3, List.foldl_nil, hm]
  rfl

/-- Helper: nothing to fill after the second-pass consolidation. -/
theorem fillIdem2_eval : fillSmallGapsIntelligent coreConfigDefault "Outros"
    [idemRunning, idemMerged] = [idemRunning, idemMerged] := by
  simp only [fillSmallGapsIntelligent, fillGapsLoop, List.length_cons, List.length_nil]
  rw [if_neg (by norm_num)]
  rw [if_neg ?hgap]
  case hgap =>
    simp only [idemRunning, idemMerged, idemFiller]
    norm_num

/-- Helper: the second pipeline pass merges the filler away. -/
theorem pipelineIdem2_eval : resolveStatusConflictsAdvanced coreConfigDefault "Outros"
    [idemRunning, idemFiller, idemOff] = [idemRunning, idemMerged] := by
  simp only [resolveStatusConflictsAdvanced, List.isEmpty_cons, Bool.false_eq_true,
    if_false, dedupIdem2_eval, sortIdem2_eval, overlapsIdem2_eval, consolidateIdem2_eval,
    fillIdem2_eval]
  exact applyML_short _ (by simp)

/-- C5 counterexample: running the reconciliation chain a second time on
its own output is not the identity — the gap filler inserted by the first
pass is consolidated with the adjacent same-status `off` interval on the
second pass (three records become two). -/
theorem pipeline_not_idempotent :
    resolveStatusConflictsAdvanced coreConfigDefault "Outros"
      (resolveStatusConflictsAdvanced coreConfigDefault "Outros" [idemRunning, idemOff]) ≠
    resolveStatusConflictsAdvanced coreConfigDefault "Outros" [idemRunning, idemOff] := by
  rw [pipelineIdem1_eval, pipelineIdem2_eval]
  simp

/-- Helper: anomaly correction preserves the list length. -/
theorem applyML_length (l : List StatusRec) :
    (applyMLOptimizations l).length = l.length := by
  unfold applyMLOptimizations
  split
  · rfl
  · exact List.length_mapIdx

/-- Helper: positionwise description of the anomaly pass on lists of
length at least three. -/
theorem applyML_get? (l : List StatusRec) (h : ¬ l.length < 3) (i : Nat) :
    (applyMLOptimizations l).get? i = (l.get? i).map (applyMLStep l i) := by
  simp [applyMLOptimizations, h, List.get?_eq_getElem?, List.getElem?_mapIdx]

/-- Helper: the anomaly step never moves interval boundaries. -/
theorem applyMLStep_bounds (l : List StatusRec) (i : Nat) (cur : StatusRec) :
    (applyMLStep l i cur).start = cur.start ∧ (applyMLStep l i cur).stop = cur.stop := by
  unfold applyMLStep
  split
  · exact ⟨rfl, rfl⟩
  · rcases l.get? (i + 1) with _ | next
    · exact ⟨rfl, rfl⟩
    · rcases l.get? (i - 1) with _ | prev
      · exact ⟨rfl, rfl⟩
      · by_cases h : isAnomalousSequence prev cur next <;>
          simp [h, correctAnomalousSequence]

/-- Helper: on a two-element list the most likely status is the first
record's status (a same-status pair returns the second record, whose
status is then equal; a split pair keeps the first). -/
theorem findMostLikely_pair_status (prev next : StatusRec) :
    (findMostLikelyStatus [prev, next]).1 = prev.status := by
  by_cases heq : next.status = prev.status
  · simp [findMostLikelyStatus, jsGet, heq]
  · have heq' : ¬ prev.status = next.status := fun h => heq h.symm
    simp [findMostLikelyStatus, jsGet, heq, heq']

/-- Helper: the corrected middle record, written out. -/
theorem correctAnomalous_eq (prev cur next : StatusRec) :
    correctAnomalousSequence prev cur next =
      { cur with
        status := prev.status
        status_title := some (findMostLikelyStatus [prev, next]).2
        anomaly_corrected := true
        original_status := some cur.status
        confidence := some (6/10) } := by
  simp [correctAnomalousSequence, findMostLikely_pair_status]

/-- Helper: the anomaly step at an interior position with both
neighbours present. -/
theorem applyMLStep_interior (l : List StatusRec) (i : Nat) (prev cur next : StatusRec)
    (h0 : i ≠ 0) (hp : l.get? (i - 1) = some prev) (hn : l.get? (i + 1) = some next) :
    applyMLStep l i cur =
      if isAnomalousSequence prev cur next then correctAnomalousSequence prev cur next
      else cur := by
  unfold applyMLStep
  rw [if_neg h0, hn]
  dsimp only
  rw [hp]

/-- C6: for every triplet `(prev, current, next)` of the sequence whose
middle matches an anomalous pattern with duration below that pattern's
threshold, the corrector replaces only the middle's status fields —
`statusCode` becomes the majority status among `{prev, next}` with ties
favouring the first (for a two-element majority this is always `prev`'s
status), `anomalyCorrected` is set, the original `statusCode` is
preserved and confidence becomes 0.6 — while non-matching triplets pass
through unchanged and no interval's start or end boundary is moved by
the pass. -/
theorem anomaly_correction_spec (l : List StatusRec) (i : Nat) (prev cur next : StatusRec)
    (h0 : i ≠ 0)
    (hp : l.get? (i - 1) = some prev) (hc : l.get? i = some cur)
    (hn : l.get? (i + 1) = some next) :
    (applyMLOptimizations l).length = l.length ∧
    (∀ j cur' res, l.get? j = some cur' → (applyMLOptimizations l).get? j = some res →
      res.start = cur'.start ∧ res.stop = cur'.stop) ∧
    (isAnomalousSequence prev cur next = true →
      (applyMLOptimizations l).get? i = some
        { cur with
          status := prev.status
          status_title := some (findMostLikelyStatus [prev, next]).2
          anomaly_corrected := true
          original_status := some cur.status
          confidence := some (6/10) }) ∧
    (isAnomalousSequence prev cur next = false →
      (applyMLOptimizations l).get? i = some cur) := by
  have hlen : ¬ l.length < 3 := by
    have h1 := (List.get?_eq_some.mp hn).1
    omega
  refine ⟨applyML_length l, ?_, ?_, ?_⟩
  · intro j cur' res hj hres
    rw [applyML_get? l hlen j, hj, Option.map_some'] at hres
    cases hres
    exact applyMLStep_bounds l j cur'
  · intro hanom
    rw [applyML_get? l hlen i, hc, Option.map_some',
      applyMLStep_interior l i prev cur next h0 hp hn, if_pos hanom, correctAnomalous_eq]
  · intro hanom
    rw [applyML_get? l hlen i, hc, Option.map_some',
      applyMLStep_interior l i prev cur next h0 hp hn, if_neg (by simp [hanom])]

/-- C6 witness. -/
theorem anomaly_correction_spec_witness :
    isAnomalousSequence idemRunning anomalousStopped anomalousNext = true ∧
    (applyMLOptimizations [idemRunning, anomalousStopped, anomalousNext]).get? 1 = some
      { anomalousStopped with
        status := idemRunning.status
        status_title := some (findMostLikelyStatus [idemRunning, anomalousNext]).2
        anomaly_corrected := true
        original_status := some anomalousStopped.status
        confidence := some (6/10) } := by
  constructor
  · decide
  · exact (anomaly_correction_spec [idemRunning, anomalousStopped, anomalousNext] 1
      idemRunning anomalousStopped anomalousNext (by decide) (by rfl) (by rfl) (by rfl)).2.2.1
      (by decide)

/-- Helper: characterization of `isAnomalousSequence`. -/
theorem isAnomalous_iff (prev cur next : StatusRec) :
    isAnomalousSequence prev cur next = true ↔
      (("running" = prev.status ∧ "stopped" = cur.status ∧ "running" = next.status ∧
        cur.stop - cur.start < 30000) ∨
       ("off" = prev.status ∧ "running" = cur.status ∧ "off" = next.status ∧
        cur.stop - cur.start < 60000) ∨
       ("maintenance" = prev.status ∧ "running" = cur.status ∧ "maintenance" = next.status ∧
        cur.stop - cur.start < 300000)) := by
  simp [isAnomalousSequence, anomalousPatterns, List.any_cons, List.any_nil,
    Bool.or_eq_true, Bool.and_eq_true, beq_iff_eq, decide_eq_true_eq, Bool.or_false,
    and_assoc]

/-- Helper: the corrected middle carries the first neighbour's status and
the middle's boundaries. -/
theorem correct_status (prev cur next : StatusRec) :
    (correctAnomalousSequence prev cur next).status = prev.status := by
  simp [correctAnomalousSequence, findMostLikely_pair_status]

/-- Helper: what `applyMLStep` can produce. -/
theorem applyMLStep_status (l : List StatusRec) (j : Nat) (x : StatusRec) :
    applyMLStep l j x = x ∨
    ∃ p q, j ≠ 0 ∧ l.get? (j - 1) = some p ∧ l.get? (j + 1) = some q ∧
      isAnomalousSequence p x q = true ∧
      applyMLStep l j x = correctAnomalousSequence p x q := by
  unfold applyMLStep
  by_cases h0 : j = 0
  · left
    rw [if_pos h0]
  · rw [if_neg h0]
    rcases hq : l.get? (j + 1) with _ | q
    · left; rfl
    · dsimp only
      rcases hp : l.get? (j - 1) with _ | p
      · left; rfl
      · dsimp only
        by_cases ha : isAnomalousSequence p x q = true
        · right
          exact ⟨p, q, h0, rfl, rfl, ha, by rw [if_pos ha]⟩
        · left
          rw [if_neg ha]

/-- Helper: the status triple of any anomalous sequence. -/
theorem anomalous_triple (p c q : StatusRec) (h : isAnomalousSequence p c q = true) :
    ("running" = p.status ∧ "stopped" = c.status ∧ "running" = q.status) ∨
    ("off" = p.status ∧ "running" = c.status ∧ "off" = q.status) ∨
    ("maintenance" = p.status ∧ "running" = c.status ∧ "maintenance" = q.status) := by
  rcases (isAnomalous_iff p c q).mp h with ⟨h1, h2, h3, _⟩ | ⟨h1, h2, h3, _⟩ | ⟨h1, h2, h3, _⟩
  · exact Or.inl ⟨h1, h2, h3⟩
  · exact Or.inr (Or.inl ⟨h1, h2, h3⟩)
  · exact Or.inr (Or.inr ⟨h1, h2, h3⟩)

/-- Helper: one corrective pass creates no new anomalous triple — every
corrected middle takes an outer status, while the patterns' own shapes
exclude a fresh match among outputs of the same pass. -/
theorem applyML_no_new_anomaly (l : List StatusRec) (hlen : ¬ l.length < 3)
    (n : Nat) (prev' cur' next' : StatusRec) (h0 : n ≠ 0)
    (hp : (applyMLOptimizations l).get? (n - 1) = some prev')
    (hc : (applyMLOptimizations l).get? n = some cur')
    (hn : (applyMLOptimizations l).get? (n + 1) = some next') :
    isAnomalousSequence prev' cur' next' = false := by
  rw [applyML_get? l hlen] at hp hc hn
  rcases hpO : l.get? (n - 1) with _ | pO
  · rw [hpO] at hp; simp at hp
  rcases hcO : l.get? n with _ | cO
  · rw [hcO] at hc; simp at hc
  rcases hnO : l.get? (n + 1) with _ | nO
  · rw [hnO] at hn; simp at hn
  rw [hpO, Option.map_some'] at hp
  rw [hcO, Option.map_some'] at hc
  rw [hnO, Option.map_some'] at hn
  have hprev : applyMLStep l (n - 1) pO = prev' := Option.some.inj hp
  have hcur : applyMLStep l n cO = cur' := Option.some.inj hc
  have hnext : applyMLStep l (n + 1) nO = next' := Option.some.inj hn
  have hn1 : n - 1 + 1 = n := Nat.succ_pred_eq_of_pos (Nat.pos_of_ne_zero h0)
  cases ha : isAnomalousSequence prev' cur' next' with
  | false => rfl
  | true =>
  exfalso
  have hbounds := applyMLStep_bounds l n cO
  rw [hcur] at hbounds
  have hprevCases : prev' = pO ∨ ∃ p2, isAnomalousSequence p2 pO cO = true ∧
      prev'.status = p2.status := by
    rcases applyMLStep_status l (n - 1) pO with h | ⟨p2, q2, _, hp2, hq2, hanomP, hcorrP⟩
    · left; rw [← hprev, h]
    · right
      rw [hn1, hcO] at hq2
      cases Option.some.inj hq2
      refine ⟨p2, hanomP, ?_⟩
      rw [← hprev, hcorrP, correct_status]
  have hnextCases : next' = nO ∨ ∃ q3, isAnomalousSequence cO nO q3 = true ∧
      next'.status = cO.status := by
    rcases applyMLStep_status l (n + 1) nO with h | ⟨p3, q3, _, hp3, hq3, hanomN, hcorrN⟩
    · left; rw [← hnext, h]
    · right
      have heq : (n + 1) - 1 = n := rfl
      rw [heq, hcO] at hp3
      cases Option.some.inj hp3
      refine ⟨q3, hanomN, ?_⟩
      rw [← hnext, hcorrN, correct_status]
  have hcurCases : cur' = cO ∨ (isAnomalousSequence pO cO nO = true ∧
      cur'.status = pO.status) := by
    rcases applyMLStep_status l n cO with h | ⟨p1, q1, _, hp1, hq1, hanomC, hcorrC⟩
    · left; rw [← hcur, h]
    · right
      rw [hpO] at hp1
      cases Option.some.inj hp1
      rw [hnO] at hq1
      cases Option.some.inj hq1
      exact ⟨hanomC, by rw [← hcur, hcorrC, correct_status]⟩
  have hstep : isAnomalousSequence pO cO nO = true → cur' = correctAnomalousSequence pO cO nO := by
    intro h
    rw [← hcur, applyMLStep_interior l n pO cO nO h0 hpO hnO, if_pos h]
  rcases (isAnomalous_iff prev' cur' next').mp ha with ⟨hA, hB, hC, hD⟩ | ⟨hA, hB, hC, hD⟩ |
    ⟨hA, hB, hC, hD⟩
  -- case 1: the new triple would be (running, stopped, running)
  · have hcO' : cur' = cO := by
      rcases hcurCases with h | ⟨hanomO, hstat⟩
      · exact h
      · rcases anomalous_triple pO cO nO hanomO with ⟨h1, _, _⟩ | ⟨h1, _, _⟩ | ⟨h1, _, _⟩ <;>
          rw [← hstat, ← hB] at h1 <;> simp at h1
    have hcOs : "stopped" = cO.status := by rw [← hcO']; exact hB
    have hpOs : "running" = pO.status := by
      rcases hprevCases with h | ⟨p2, hanomP, hstatP⟩
      · rw [← h]; exact hA
      · rcases anomalous_triple p2 pO cO hanomP with ⟨_, _, h3⟩ | ⟨_, _, h3⟩ | ⟨_, _, h3⟩ <;>
          rw [← hcOs] at h3 <;> simp at h3
    have hnOs : "running" = nO.status := by
      rcases hnextCases with h | ⟨q3, hanomN, hstatN⟩
      · rw [← h]; exact hC
      · rcases anomalous_triple cO nO q3 hanomN with ⟨h1, _, _⟩ | ⟨h1, _, _⟩ | ⟨h1, _, _⟩ <;>
          rw [← hcOs] at h1 <;> simp at h1
    have hanomO : isAnomalousSequence pO cO nO = true := by
      rw [isAnomalous_iff]
      refine Or.inl ⟨hpOs, hcOs, hnOs, ?_⟩
      rw [← hbounds.2, ← hbounds.1]
      exact hD
    have hcontra := hstep hanomO
    rw [hcO'] at hcontra
    have hcorrS := correct_status pO cO nO
    rw [← hcontra] at hcorrS
    rw [← hcorrS, ← hcOs] at hpOs
    simp at hpOs
  -- case 2: the new triple would be (off, running, off)
  · have hcase : cur' = cO ∨ ("running" = pO.status ∧ "stopped" = cO.status ∧
        "running" = nO.status) := by
      rcases hcurCases with h | ⟨hanomO, hstat⟩
      · exact Or.inl h
      · rcases anomalous_triple pO cO nO hanomO with ⟨h1, h2, h3⟩ | ⟨h1, _, _⟩ | ⟨h1, _, _⟩
        · exact Or.inr ⟨h1, h2, h3⟩
        · rw [← hstat, ← hB] at h1; simp at h1
        · rw [← hstat, ← hB] at h1; simp at h1
    rcases hcase with hcO' | ⟨hr, hst, hrn⟩
    · have hcOs : "running" = cO.status := by rw [← hcO']; exact hB
      have hpOs : "off" = pO.status := by
        rcases hprevCases with h | ⟨p2, hanomP, hstatP⟩
        · rw [← h]; exact hA
        · rcases anomalous_triple p2 pO cO hanomP with ⟨h1, _, h3⟩ | ⟨_, _, h3⟩ | ⟨_, _, h3⟩
          · rw [← hstatP, ← hA] at h1; simp at h1
          · rw [← hcOs] at h3; simp at h3
          · rw [← hcOs] at h3; simp at h3
      have hnOs : "off" = nO.status := by
        rcases hnextCases with h | ⟨q3, hanomN, hstatN⟩
        · rw [← h]; exact hC
        · rw [← hcOs, ← hC] at hstatN; simp at hstatN
      have hanomO : isAnomalousSequence pO cO nO = true := by
        rw [isAnomalous_iff]
        refine Or.inr (Or.inl ⟨hpOs, hcOs, hnOs, ?_⟩)
        rw [← hbounds.2, ← hbounds.1]
        exact hD
      have hcontra := hstep hanomO
      rw [hcO'] at hcontra
      have hcorrS := correct_status pO cO nO
      rw [← hcontra] at hcorrS
      rw [← hcorrS, ← hcOs] at hpOs
      simp at hpOs
    · rcases hprevCases with h | ⟨p2, hanomP, hstatP⟩
      · rw [← h, ← hA] at hr; simp at hr
      · rcases anomalous_triple p2 pO cO hanomP with ⟨_, _, h3⟩ | ⟨_, _, h3⟩ | ⟨_, _, h3⟩ <;>
          rw [← hst] at h3 <;> simp at h3
  -- case 3: the new triple would be (maintenance, running, maintenance)
  · have hcase : cur' = cO ∨ ("running" = pO.status ∧ "stopped" = cO.status ∧
        "running" = nO.status) := by
      rcases hcurCases with h | ⟨hanomO, hstat⟩
      · exact Or.inl h
      · rcases anomalous_triple pO cO nO hanomO with ⟨h1, h2, h3⟩ | ⟨h1, _, _⟩ | ⟨h1, _, _⟩
        · exact Or.inr ⟨h1, h2, h3⟩
        · rw [← hstat, ← hB] at h1; simp at h1
        · rw [← hstat, ← hB] at h1; simp at h1
    rcases hcase with hcO' | ⟨hr, hst, hrn⟩
    · have hcOs : "running" = cO.status := by rw [← hcO']; exact hB
      have hpOs : "maintenance" = pO.status := by
        rcases hprevCases with h | ⟨p2, hanomP, hstatP⟩
        · rw [← h]; exact hA
        · rcases anomalous_triple p2 pO cO hanomP with ⟨h1, _, h3⟩ | ⟨_, _, h3⟩ | ⟨_, _, h3⟩
          · rw [← hstatP, ← hA] at h1; simp at h1
          · rw [← hcOs] at h3; simp at h3
          · rw [← hcOs] at h3; simp at h3
      have hnOs : "maintenance" = nO.status := by
        rcases hnextCases with h | ⟨q3, hanomN, hstatN⟩
        · rw [← h]; exact hC
        · rw [← hcOs, ← hC] at hstatN; simp at hstatN
      have hanomO : isAnomalousSequence pO cO nO = true := by
        rw [isAnomalous_iff]
        refine Or.inr (Or.inr ⟨hpOs, hcOs, hnOs, ?_⟩)
        rw [← hbounds.2, ← hbounds.1]
        exact hD
      have hcontra := hstep hanomO
      rw [hcO'] at hcontra
      have hcorrS := correct_status pO cO nO
      rw [← hcontra] at hcorrS
      rw [← hcorrS, ← hcOs] at hpOs
      simp at hpOs
    · rcases hprevCases with h | ⟨p2, hanomP, hstatP⟩
      · rw [← h, ← hA] at hr; simp at hr
      · rcases anomalous_triple p2 pO cO hanomP with ⟨_, _, h3⟩ | ⟨_, _, h3⟩ | ⟨_, _, h3⟩ <;>
          rw [← hst] at h3 <;> simp at h3

/-- C5 amended: the reconciliation chain as a whole is not idempotent —
a filler interval inserted by gap filling can be consolidated with an
adjacent same-status interval on the second run (see the counterexample)
— but the anomaly-correction stage on its own is idempotent: running
`applyMLOptimizations` on its own output changes nothing, for every
input list. -/
theorem applyML_idempotent (l : List StatusRec) :
    applyMLOptimizations (applyMLOptimizations l) = applyMLOptimizations l := by
  by_cases hlen : l.length < 3
  · rw [applyML_short l hlen, applyML_short l hlen]
  · have hlen2 : ¬ (applyMLOptimizations l).length < 3 := by
      rw [applyML_length]; exact hlen
    apply List.ext_get?
    intro j
    rw [applyML_get? _ hlen2 j]
    cases hj : (applyMLOptimizations l).get? j with
    | none => rfl
    | some cur' =>
      rw [Option.map_some']
      congr 1
      rcases applyMLStep_status (applyMLOptimizations l) j cur' with h |
        ⟨p, q, hj0, hpj, hqj, hanom, hcorr⟩
      · exact h
      · exfalso
        have hfalse := applyML_no_new_anomaly l hlen j p cur' q hj0 hpj hj hqj
        rw [hanom] at hfalse
        cases hfalse

/-- The invariant relation carried through the pipeline stages: the next
interval starts no earlier than 30 seconds (the overlap tolerance, in
milliseconds) before the previous one ends, and starts do not decrease. -/
def chainR (a b : StatusRec) : Prop := a.stop - 30000 ≤ b.start ∧ a.start ≤ b.start

/-- Helper: `chainR` is monotone along a chain for start times. -/
theorem chain_start_mono (a : StatusRec) :
    ∀ (l : List StatusRec), List.Chain' chainR (a :: l) → ∀ x ∈ l, a.start ≤ x.start := by
  intro l
  induction l generalizing a with
  | nil => exact fun _ x hx => absurd hx (List.not_mem_nil x)
  | cons b t ih =>
    intro h x hx
    rw [List.chain'_cons] at h
    rcases List.mem_cons.mp hx with rfl | hx2
    · exact h.1.2
    · exact le_trans h.1.2 (ih b h.2 x hx2)

/-- Helper: every record kept by the dedup filter is an input record. -/
theorem removeDuplicates_subset (l : List StatusRec) :
    ∀ x ∈ removeDuplicatesAdvanced l, x ∈ l := by
  have key : ∀ (t : List StatusRec)
      (acc : List ((Int × Int × String × String) × StatusRec) × List StatusRec),
      ∀ x ∈ (t.foldl removeDuplicatesStep acc).2, x ∈ acc.2 ∨ x ∈ t := by
    intro t
    induction t with
    | nil => intro acc x hx; exact Or.inl hx
    | cons a t ih =>
      intro acc x hx
      rw [List.foldl_cons] at hx
      have hstep : (removeDuplicatesStep acc a).2 = acc.2 ∨
          (removeDuplicatesStep acc a).2 = acc.2 ++ [a] := by
        unfold removeDuplicatesStep
        dsimp only
        split
        · split
          · right; rfl
          · left; rfl
        · right; rfl
      rcases ih _ x hx with hx2 | hx2
      · rcases hstep with h | h
        · rw [h] at hx2
          exact Or.inl hx2
        · rw [h] at hx2
          rcases List.mem_append.mp hx2 with h2 | h2
          · exact Or.inl h2
          · simp at h2
            right
            rw [h2]
            exact List.mem_cons_self a t
      · right
        exact List.mem_cons_of_mem a hx2
  intro x hx
  rcases key l ([], []) x hx with h | h
  · cases h
  · exact h

/-- Helper: the stable sort preserves membership and sorts by start. -/
theorem sort_props (l : List StatusRec) :
    (∀ x ∈ l.insertionSort startLE, x ∈ l) ∧ (l.insertionSort startLE).Sorted startLE :=
  ⟨fun _ hx => (List.perm_insertionSort startLE l).mem_iff.mp hx,
   List.sorted_insertionSort startLE l⟩

/-- Helper: the split action is unreachable (the default pattern's
confidence 0.5 never exceeds 0.7). -/
theorem resolveConflictAdvanced_no_split (cfg : CoreConfig) (g : String)
    (s1 s2 : StatusRec) (p : ℚ) :
    resolveConflictAdvanced cfg g s1 s2 ≠ ConflictAction.split_intelligent p := by
  intro h
  simp only [resolveConflictAdvanced] at h
  split at h
  · split at h
    · cases h
    · cases h
  · split at h
    · split at h
      · rename_i hconf
        simp [detectPattern] at hconf
        norm_num at hconf
      · cases h
    · cases h

/-- Helper: the traditional resolver keeps the current side with an
extended end or keeps the incoming side. -/
theorem resolveConflictTraditional_cases (cfg : CoreConfig) (s1 s2 : StatusRec) :
    resolveConflictTraditional cfg s1 s2 = { s1 with stop := s2.stop } ∨
    resolveConflictTraditional cfg s1 s2 = s2 := by
  unfold resolveConflictTraditional
  by_cases h1 : cfg.conflictResolution = "priority"
  · rw [if_pos h1]
    by_cases h2 : statusPriority s1.status > statusPriority s2.status
    · rw [if_pos h2]; left; rfl
    · rw [if_neg h2]
      by_cases h3 : statusPriority s2.status > statusPriority s1.status
      · rw [if_pos h3]; right; rfl
      · rw [if_neg h3]; right; rfl
  · rw [if_neg h1]
    by_cases h2 : cfg.conflictResolution = "latest"
    · rw [if_pos h2]; right; rfl
    · rw [if_neg h2]
      by_cases h3 : cfg.conflictResolution = "longest"
      · rw [if_pos h3]
        by_cases h4 : s2.stop - s2.start < s1.stop - s1.start
        · rw [if_pos h4]; left; rfl
        · rw [if_neg h4]; right; rfl
      · rw [if_neg h3]; right; rfl

/-- Helper: the overlap walk seeds its running record. -/
theorem resolveOverlapsStep_init (cfg : CoreConfig) (g : String) (out : List StatusRec)
    (s : StatusRec) : resolveOverlapsStep cfg g (out, none) s = (out, some s) := rfl

/-- Helper: without a strict overlap the walk flushes the running record. -/
theorem resolveOverlapsStep_flush (cfg : CoreConfig) (g : String) (out : List StatusRec)
    (c s : StatusRec) (h : ¬ (s.start < c.stop ∧ c.stop - s.start > 30000)) :
    resolveOverlapsStep cfg g (out, some c) s = (out ++ [c], some s) := by
  simp only [resolveOverlapsStep, if_neg h]

/-- Helper: on a strict overlap the walk keeps a resolved running record
whose start lies between the two starts and whose bounds are ordered. -/
theorem resolveOverlapsStep_overlap (cfg : CoreConfig) (g : String) (out : List StatusRec)
    (c s : StatusRec) (h : s.start < c.stop ∧ c.stop - s.start > 30000)
    (hcs : c.start ≤ s.start) (hc : c.start < c.stop) (hs : s.start < s.stop) :
    ∃ c', resolveOverlapsStep cfg g (out, some c) s = (out, some c') ∧
      c.start ≤ c'.start ∧ c'.start ≤ s.start ∧ c'.start < c'.stop := by
  unfold resolveOverlapsStep
  dsimp only
  rw [if_pos h]
  cases hact : resolveConflictAdvanced cfg g c s with
  | merge_weighted w1 w2 =>
    exact ⟨mergeStatusWithWeight c s w1 w2, rfl, le_refl _, hcs, lt_of_le_of_lt hcs hs⟩
  | split_intelligent p =>
    exact absurd hact (resolveConflictAdvanced_no_split cfg g c s p)
  | priority_enhanced b =>
    cases b with
    | true =>
      refine ⟨_, rfl, le_refl _, hcs, ?_⟩
      dsimp only
      split
      · exact lt_trans hc (by assumption)
      · exact hc
    | false =>
      exact ⟨_, rfl, hcs, le_refl _, hs⟩
  | traditional =>
    rcases resolveConflictTraditional_cases cfg c s with hcase | hcase
    · refine ⟨_, rfl, ?_⟩
      rw [hcase]
      exact ⟨le_refl _, hcs, lt_of_le_of_lt hcs hs⟩
    · refine ⟨_, rfl, ?_⟩
      rw [hcase]
      exact ⟨hcs, le_refl _, hs⟩

/-- Helper: the overlap walk maintains the 30-second chain bound, ordered
bounds, and nondecreasing starts. -/
theorem resolveOverlaps_fold (cfg : CoreConfig) (g : String) :
    ∀ (t : List StatusRec) (out : List StatusRec) (cur : Option StatusRec),
    (∀ x ∈ t, x.start < x.stop) →
    t.Pairwise startLE →
    (∀ c, cur = some c → c.start < c.stop) →
    (∀ c, cur = some c → ∀ s ∈ t, c.start ≤ s.start) →
    List.Chain' chainR out →
    (∀ x ∈ out, x.start < x.stop) →
    (∀ c, cur = some c → ∀ last ∈ out.getLast?, chainR last c) →
    (cur = none → out = []) →
    List.Chain' chainR (flushCurrent (t.foldl (resolveOverlapsStep cfg g) (out, cur))) ∧
    ∀ x ∈ flushCurrent (t.foldl (resolveOverlapsStep cfg g) (out, cur)), x.start < x.stop := by
  intro t
  induction t with
  | nil =>
    intro out cur hpos hpw hcpos hcmono hchain hopos hlast hnone
    rw [List.foldl_nil]
    cases cur with
    | none =>
      rw [hnone rfl]
      exact ⟨List.chain'_nil, by intro x hx; cases hx⟩
    | some c =>
      constructor
      · apply hchain.append (List.chain'_singleton c)
        intro x hx y hy
        simp at hy
        subst hy
        exact hlast c rfl x hx
      · intro x hx
        rcases List.mem_append.mp hx with h | h
        · exact hopos x h
        · simp at h
          subst h
          exact hcpos x rfl
  | cons s t ih =>
    intro out cur hpos hpw hcpos hcmono hchain hopos hlast hnone
    rw [List.foldl_cons]
    cases cur with
    | none =>
      rw [resolveOverlapsStep_init]
      rw [hnone rfl]
      apply ih
      · exact fun x hx => hpos x (List.mem_cons_of_mem s hx)
      · exact (List.pairwise_cons.mp hpw).2
      · intro c hc
        cases hc
        exact hpos s (List.mem_cons_self s t)
      · intro c hc
        cases hc
        intro s' hs'
        exact (List.pairwise_cons.mp hpw).1 s' hs'
      · exact List.chain'_nil
      · intro x hx
        cases hx
      · intro c hc last hl
        simp at hl
      · intro _
        rfl
    | some c =>
      by_cases hov : s.start < c.stop ∧ c.stop - s.start > 30000
      · obtain ⟨c', hstep, hge, hle, hpos'⟩ := resolveOverlapsStep_overlap cfg g out c s hov
          (hcmono c rfl s (List.mem_cons_self s t)) (hcpos c rfl)
          (hpos s (List.mem_cons_self s t))
        rw [hstep]
        apply ih
        · exact fun x hx => hpos x (List.mem_cons_of_mem s hx)
        · exact (List.pairwise_cons.mp hpw).2
        · intro c2 hc2
          cases hc2
          exact hpos'
        · intro c2 hc2
          cases hc2
          intro s' hs'
          exact le_trans hle ((List.pairwise_cons.mp hpw).1 s' hs')
        · exact hchain
        · exact hopos
        · intro c2 hc2 last hl
          cases hc2
          have hlk := hlast c rfl last hl
          exact ⟨le_trans hlk.1 hge, le_trans hlk.2 hge⟩
        · intro hcontra
          cases hcontra
      · rw [resolveOverlapsStep_flush cfg g out c s hov]
        apply ih
        · exact fun x hx => hpos x (List.mem_cons_of_mem s hx)
        · exact (List.pairwise_cons.mp hpw).2
        · intro c2 hc2
          cases hc2
          exact hpos s (List.mem_cons_self s t)
        · intro c2 hc2
          cases hc2
          intro s' hs'
          exact (List.pairwise_cons.mp hpw).1 s' hs'
        · apply hchain.append (List.chain'_singleton c)
          intro x hx y hy
          simp at hy
          subst hy
          exact hlast c rfl x hx
        · intro x hx
          rcases List.mem_append.mp hx with h | h
          · exact hopos x h
          · simp at h
            subst h
            exact hcpos x rfl
        · intro c2 hc2 last hl
          cases hc2
          rw [List.getLast?_concat] at hl
          cases Option.some.inj hl
          constructor
          · rcases not_and_or.mp hov with h | h <;> omega
          · exact hcmono c rfl s (List.mem_cons_self s t)
        · intro hcontra
          cases hcontra

/-- Helper: overlap resolution yields the 30-second chain bound and
ordered bounds from sorted positive input. -/
theorem resolveOverlaps_props (cfg : CoreConfig) (g : String) (l : List StatusRec)
    (hpos : ∀ x ∈ l, x.start < x.stop) (hsort : l.Sorted startLE) :
    List.Chain' chainR (resolveOverlapsAdvanced cfg g l) ∧
    ∀ x ∈ resolveOverlapsAdvanced cfg g l, x.start < x.stop := by
  unfold resolveOverlapsAdvanced
  split
  · rcases l with _ | ⟨a, _ | ⟨b, t⟩⟩
    · exact ⟨List.chain'_nil, by intro x hx; cases hx⟩
    · exact ⟨List.chain'_singleton a, hpos⟩
    · rename_i hlen
      simp at hlen
  · exact resolveOverlaps_fold cfg g l [] none hpos hsort
      (by intro c hc; cases hc) (by intro c hc; cases hc) List.chain'_nil
      (by intro x hx; cases hx) (by intro c hc; cases hc) (fun _ => rfl)

/-- Helper: the consolidation walk preserves the 30-second chain bound
and ordered bounds. -/
theorem consolidate_fold (cfg : CoreConfig) :
    ∀ (t : List StatusRec) (out : List StatusRec) (cur : Option StatusRec),
    (∀ x ∈ t, x.start < x.stop) →
    List.Chain' chainR t →
    (∀ c, cur = some c → c.start < c.stop) →
    (∀ c, cur = some c → ∀ h ∈ t.head?, chainR c h) →
    (∀ c, cur = some c → ∀ s ∈ t, c.start ≤ s.start) →
    List.Chain' chainR out →
    (∀ x ∈ out, x.start < x.stop) →
    (∀ c, cur = some c → ∀ last ∈ out.getLast?, chainR last c) →
    (cur = none → out = []) →
    List.Chain' chainR (flushCurrent (t.foldl (consolidateStep cfg) (out, cur))) ∧
    ∀ x ∈ flushCurrent (t.foldl (consolidateStep cfg) (out, cur)), x.start < x.stop := by
  intro t
  induction t with
  | nil =>
    intro out cur hpos hchainT hcpos hchead hcmono hchain hopos hlast hnone
    rw [List.foldl_nil]
    cases cur with
    | none =>
      rw [hnone rfl]
      exact ⟨List.chain'_nil, by intro x hx; cases hx⟩
    | some c =>
      constructor
      · apply hchain.append (List.chain'_singleton c)
        intro x hx y hy
        simp at hy
        subst hy
        exact hlast c rfl x hx
      · intro x hx
        rcases List.mem_append.mp hx with h | h
        · exact hopos x h
        · simp at h
          subst h
          exact hcpos x rfl
  | cons s t ih =>
    intro out cur hpos hchainT hcpos hchead hcmono hchain hopos hlast hnone
    have hlink := (List.chain'_cons'.mp hchainT).1
    have htail := (List.chain'_cons'.mp hchainT).2
    rw [List.foldl_cons]
    cases cur with
    | none =>
      rw [consolidateStep_init]
      rw [hnone rfl]
      apply ih
      · exact fun x hx => hpos x (List.mem_cons_of_mem s hx)
      · exact htail
      · intro c hc
        cases hc
        exact hpos s (List.mem_cons_self s t)
      · intro c hc
        cases hc
        exact hlink
      · intro c hc
        cases hc
        exact chain_start_mono s t hchainT
      · exact List.chain'_nil
      · intro x hx
        cases hx
      · intro c hc last hl
        simp at hl
      · intro _
        rfl
    | some c =>
      have hcs : c.start ≤ s.start :=
        (hchead c rfl s (by simp)).2
      by_cases hm : (c.status = s.status ∧ c.status_title = s.status_title ∧
          |((s.start - c.stop : Int) : ℚ) / 1000| ≤ getAdaptiveTolerance cfg c.status s.status) ∨
        (areStatusesCompatible c.status s.status = true ∧
          |((s.start - c.stop : Int) : ℚ) / 1000| ≤ 30)
      · rw [consolidateStep_merge cfg out c s hm]
        apply ih
        · exact fun x hx => hpos x (List.mem_cons_of_mem s hx)
        · exact htail
        · intro c2 hc2
          cases hc2
          exact lt_of_le_of_lt hcs (hpos s (List.mem_cons_self s t))
        · intro c2 hc2
          cases hc2
          intro hd hhd
          have hsh := hlink hd hhd
          exact ⟨hsh.1, le_trans hcs hsh.2⟩
        · intro c2 hc2
          cases hc2
          intro s' hs'
          exact hcmono c rfl s' (List.mem_cons_of_mem s hs')
        · exact hchain
        · exact hopos
        · intro c2 hc2 last hl
          cases hc2
          have hlk := hlast c rfl last hl
          exact ⟨hlk.1, hlk.2⟩
        · intro hcontra
          cases hcontra
      · rw [consolidateStep_push cfg out c s hm]
        apply ih
        · exact fun x hx => hpos x (List.mem_cons_of_mem s hx)
        · exact htail
        · intro c2 hc2
          cases hc2
          exact hpos s (List.mem_cons_self s t)
        · intro c2 hc2
          cases hc2
          exact hlink
        · intro c2 hc2
          cases hc2
          exact chain_start_mono s t hchainT
        · apply hchain.append (List.chain'_singleton c)
          intro x hx y hy
          simp at hy
          subst hy
          exact hlast c rfl x hx
        · intro x hx
          rcases List.mem_append.mp hx with h | h
          · exact hopos x h
          · simp at h
            subst h
            exact hcpos x rfl
        · intro c2 hc2 last hl
          cases hc2
          rw [List.getLast?_concat] at hl
          cases Option.some.inj hl
          exact hchead c rfl s (by simp)
        · intro hcontra
          cases hcontra

/-- Helper: consolidation preserves the 30-second chain bound and
ordered bounds. -/
theorem consolidate_props (cfg : CoreConfig) (l : List StatusRec)
    (hpos : ∀ x ∈ l, x.start < x.stop) (hchain : List.Chain' chainR l) :
    List.Chain' chainR (consolidateConsecutiveAdvanced cfg l) ∧
    ∀ x ∈ consolidateConsecutiveAdvanced cfg l, x.start < x.stop := by
  unfold consolidateConsecutiveAdvanced
  split
  · exact ⟨hchain, hpos⟩
  · exact consolidate_fold cfg l [] none hpos hchain
      (by intro c hc; cases hc) (by intro c hc; cases hc) (by intro c hc; cases hc)
      List.chain'_nil (by intro x hx; cases hx) (by intro c hc; cases hc) (fun _ => rfl)

/-- Helper: the filler keeps the earlier record's end as its start. -/
theorem fillerRecord_start (g : String) (a b : StatusRec) :
    (fillerRecord g a b).start = a.stop := rfl

/-- Helper: the filler keeps the later record's start as its end. -/
theorem fillerRecord_stop (g : String) (a b : StatusRec) :
    (fillerRecord g a b).stop = b.start := rfl

/-- Helper: the gap-filling loop preserves the 30-second chain bound,
ordered bounds and the first record. -/
theorem fillGapsLoop_props (cfg : CoreConfig) (g : String) :
    ∀ l : List StatusRec, List.Chain' chainR l → (∀ x ∈ l, x.start < x.stop) →
    List.Chain' chainR (fillGapsLoop cfg g l) ∧
    (∀ x ∈ fillGapsLoop cfg g l, x.start < x.stop) ∧
    (fillGapsLoop cfg g l).head? = l.head? := by
  intro l
  induction l with
  | nil =>
    intro _ _
    refine ⟨List.chain'_nil, ?_, rfl⟩
    intro x hx
    cases hx
  | cons a t ih =>
    cases t with
    | nil =>
      intro _ hpos
      exact ⟨List.chain'_singleton a, hpos, rfl⟩
    | cons b t2 =>
      intro hchain hpos
      have hab : chainR a b := (List.chain'_cons'.mp hchain).1 b (by simp)
      have htail : List.Chain' chainR (b :: t2) := (List.chain'_cons'.mp hchain).2
      have hposT : ∀ x ∈ b :: t2, x.start < x.stop :=
        fun x hx => hpos x (List.mem_cons_of_mem a hx)
      obtain ⟨ihc, ihp, ihh⟩ := ih htail hposT
      have hheadb : (fillGapsLoop cfg g (b :: t2)).head? = some b := ihh
      simp only [fillGapsLoop]
      by_cases hg : (0 : ℚ) < ((b.start - a.stop : Int) : ℚ) / 1000 ∧
          ((b.start - a.stop : Int) : ℚ) / 1000 ≤ cfg.gapTolerance * 2
      · rw [if_pos hg]
        have hlt : a.stop < b.start := by
          rcases div_pos_iff.mp hg.1 with ⟨hnum, _⟩ | ⟨_, hden⟩
          · have := Int.cast_pos.mp hnum
            omega
          · norm_num at hden
        have hapos := hpos a (List.mem_cons_self a _)
        refine ⟨?_, ?_, rfl⟩
        · apply List.chain'_cons.mpr
          constructor
          · exact ⟨by rw [fillerRecord_start]; omega, by rw [fillerRecord_start]; omega⟩
          · apply List.chain'_cons'.mpr
            refine ⟨?_, ihc⟩
            intro y hy
            rw [hheadb] at hy
            have hyb : y = b := by
              cases hy
              rfl
            subst hyb
            exact ⟨by rw [fillerRecord_stop]; omega, by rw [fillerRecord_start]; omega⟩
        · intro x hx
          rcases List.mem_cons.mp hx with rfl | hx2
          · exact hpos x (List.mem_cons_self x _)
          rcases List.mem_cons.mp hx2 with rfl | hx3
          · rw [fillerRecord_start, fillerRecord_stop]
            exact hlt
          · exact ihp x hx3
      · rw [if_neg hg]
        refine ⟨?_, ?_, rfl⟩
        · apply List.chain'_cons'.mpr
          refine ⟨?_, ihc⟩
          intro y hy
          rw [hheadb] at hy
          have hyb : y = b := by
            cases hy
            rfl
          subst hyb
          exact hab
        · intro x hx
          rcases List.mem_cons.mp hx with rfl | hx2
          · exact hpos x (List.mem_cons_self x _)
          · exact ihp x hx2

/-- Helper: gap filling preserves the 30-second chain bound and ordered
bounds. -/
theorem fillSmallGaps_props (cfg : CoreConfig) (g : String) (l : List StatusRec)
    (hchain : List.Chain' chainR l) (hpos : ∀ x ∈ l, x.start < x.stop) :
    List.Chain' chainR (fillSmallGapsIntelligent cfg g l) ∧
    ∀ x ∈ fillSmallGapsIntelligent cfg g l, x.start < x.stop := by
  unfold fillSmallGapsIntelligent
  split
  · exact ⟨hchain, hpos⟩
  · exact ⟨(fillGapsLoop_props cfg g l hchain hpos).1,
      (fillGapsLoop_props cfg g l hchain hpos).2.1⟩

/-- Helper: a chained list relates any two adjacent positions. -/
theorem chain_get? (m : List StatusRec) (hm : List.Chain' chainR m) :
    ∀ (j : Nat) (y1 y2 : StatusRec), m.get? j = some y1 → m.get? (j + 1) = some y2 →
    chainR y1 y2 := by
  intro j y1 y2 h1 h2
  obtain ⟨hL1, hg1⟩ := List.get?_eq_some.mp h1
  obtain ⟨hL2, hg2⟩ := List.get?_eq_some.mp h2
  have hcg := List.chain'_iff_get.mp hm j (by omega)
  subst hg1
  subst hg2
  exact hcg

/-- Helper: the anomaly pass changes no interval boundaries, so it
preserves the 30-second chain bound and ordered bounds. -/
theorem applyML_props (l : List StatusRec)
    (hchain : List.Chain' chainR l) (hpos : ∀ x ∈ l, x.start < x.stop) :
    List.Chain' chainR (applyMLOptimizations l) ∧
    ∀ x ∈ applyMLOptimizations l, x.start < x.stop := by
  by_cases h : l.length < 3
  · unfold applyMLOptimizations
    rw [if_pos h]
    exact ⟨hchain, hpos⟩
  · have hb : ∀ (i : Nat) (x : StatusRec), (applyMLOptimizations l).get? i = some x →
        ∃ y, l.get? i = some y ∧ x.start = y.start ∧ x.stop = y.stop := by
      intro i x hx
      rw [applyML_get? l h i] at hx
      rcases hy : l.get? i with _ | y
      · rw [hy] at hx
        cases hx
      · rw [hy] at hx
        have hx2 : applyMLStep l i y = x := Option.some.inj hx
        refine ⟨y, rfl, ?_, ?_⟩
        · rw [← hx2]
          exact (applyMLStep_bounds l i y).1
        · rw [← hx2]
          exact (applyMLStep_bounds l i y).2
    have hkey : ∀ (i : Nat) (x1 x2 : StatusRec),
        (applyMLOptimizations l).get? i = some x1 →
        (applyMLOptimizations l).get? (i + 1) = some x2 → chainR x1 x2 := by
      intro i x1 x2 h1 h2
      obtain ⟨y1, hy1, hs1, ht1⟩ := hb i x1 h1
      obtain ⟨y2, hy2, hs2, ht2⟩ := hb (i + 1) x2 h2
      have hr := chain_get? l hchain i y1 y2 hy1 hy2
      exact ⟨by rw [ht1, hs2]; exact hr.1, by rw [hs1, hs2]; exact hr.2⟩
    have hlen := applyML_length l
    constructor
    · rw [List.chain'_iff_get]
      intro i hi
      exact hkey i _ _ (List.get?_eq_get (by omega)) (List.get?_eq_get (by omega))
    · intro x hx
      obtain ⟨i, hi⟩ := List.mem_iff_get?.mp hx
      obtain ⟨y, hy, hs, ht⟩ := hb i x hi
      rw [hs, ht]
      exact hpos y (List.get?_mem hy)

/-- C1 (amended): the reconciliation pipeline's output is non-overlapping
only up to the 30-second overlap tolerance — for adjacent output records
the later start is at least the earlier end minus 30 000 ms — and, when
every input record has `start < end`, so does every output record.  The
strict claim `resolved[i].end ≤ resolved[i+1].start` fails (see the
counterexample theorem). -/
theorem pipeline_tolerant_nonoverlap (cfg : CoreConfig) (g : String)
    (l : List StatusRec) (hpos : ∀ x ∈ l, x.start < x.stop) :
    List.Chain' (fun a b => a.stop - 30000 ≤ b.start)
      (resolveStatusConflictsAdvanced cfg g l) ∧
    ∀ x ∈ resolveStatusConflictsAdvanced cfg g l, x.start < x.stop := by
  unfold resolveStatusConflictsAdvanced
  split
  · refine ⟨List.chain'_nil, ?_⟩
    intro x hx
    cases hx
  · have h1 : ∀ x ∈ removeDuplicatesAdvanced l, x.start < x.stop :=
      fun x hx => hpos x (removeDuplicates_subset l x hx)
    have h2pos : ∀ x ∈ (removeDuplicatesAdvanced l).insertionSort startLE,
        x.start < x.stop :=
      fun x hx => h1 x ((sort_props (removeDuplicatesAdvanced l)).1 x hx)
    have h2sort := (sort_props (removeDuplicatesAdvanced l)).2
    obtain ⟨h3c, h3p⟩ := resolveOverlaps_props cfg g _ h2pos h2sort
    obtain ⟨h4c, h4p⟩ := consolidate_props cfg _ h3p h3c
    obtain ⟨h5c, h5p⟩ := fillSmallGaps_props cfg g _ h4c h4p
    obtain ⟨h6c, h6p⟩ := applyML_props _ h5c h5p
    exact ⟨h6c.imp (fun _ _ hab => hab.1), h6p⟩

/-- Witness for the amended C1 theorem on scenario D's two records. -/
theorem pipeline_tolerant_nonoverlap_witness :
    (∀ x ∈ [scenarioDFirst, scenarioDSecond], x.start < x.stop) ∧
    (List.Chain' (fun a b => a.stop - 30000 ≤ b.start)
       (resolveStatusConflictsAdvanced coreConfigDefault "Outros"
         [scenarioDFirst, scenarioDSecond]) ∧
     ∀ x ∈ resolveStatusConflictsAdvanced coreConfigDefault "Outros"
         [scenarioDFirst, scenarioDSecond], x.start < x.stop) :=
  ⟨by decide, pipeline_tolerant_nonoverlap coreConfigDefault "Outros"
    [scenarioDFirst, scenarioDSecond] (by decide)⟩
